import Mathlib

/-!
Shallow embedding of the core parsing logic of `src/parser_logic.py`
(the SSE delta-log parser).  Python strings are modelled as `List Char`,
decoded JSON values as the inductive `Json` below (JSON numbers are
modelled as integers: the numeric fields the parsers touch are token
counts and epoch seconds; float literals are outside the modelled
subset and are rejected by the modelled decoder), and Python `None`
as `Json.null`.  Statements that can raise (`AttributeError`,
`TypeError`, ...) are modelled in the `Except PyExc` monad.
-/

namespace DeltaToJson

/-- Characters of a Python string; the whole embedding works over char lists. -/
abbrev Str := List Char

def toL (s : String) : Str := s.toList

/-- Whitespace stripped by Python `str.strip()` (ASCII subset). -/
def isPySpace (c : Char) : Bool :=
  c = ' ' || c = '\t' || c = '\n' || c = '\r' || c = '\x0b' || c = '\x0c'

/-- Python `str.strip()`. -/
def pyStrip (s : Str) : Str :=
  ((s.dropWhile isPySpace).reverse.dropWhile isPySpace).reverse

/-- Python `str.split('\n')`. -/
def pySplitNl : Str → List Str
  | [] => [[]]
  | c :: rest =>
    if c = '\n' then [] :: pySplitNl rest
    else
      match pySplitNl rest with
      | [] => [[c]]
      | l :: ls => (c :: l) :: ls

/-- Python `needle in hay` on strings (substring test). -/
def containsSub (hay needle : Str) : Bool :=
  match hay with
  | [] => needle.isEmpty
  | c :: t => needle.isPrefixOf (c :: t) || containsSub t needle

def natStr (n : Nat) : Str := Nat.toDigits 10 n

def intStr (n : Int) : Str :=
  if n < 0 then '-' :: Nat.toDigits 10 n.natAbs else Nat.toDigits 10 n.natAbs

/-- Decoded JSON values (= the Python values produced by `json.loads`).
`null` doubles as Python `None`.  Numbers are modelled as integers. -/
inductive Json where
  | null : Json
  | bool : Bool → Json
  | num : Int → Json
  | str : Str → Json
  | arr : List Json → Json
  | obj : List (Str × Json) → Json

/-- Raw association-list lookup (first match; the decoder keeps keys unique). -/
def lookupKey : List (Str × Json) → Str → Option Json
  | [], _ => none
  | (k', v) :: t, k => if k' = k then some v else lookupKey t k

/-- Python `d[k] = v` on a dict: replace in place, else append (insertion order). -/
def setKey : List (Str × Json) → Str → Json → List (Str × Json)
  | [], k, v => [(k, v)]
  | (k', v') :: t, k, v => if k' = k then (k, v) :: t else (k', v') :: setKey t k v

def isNull : Json → Bool
  | .null => true
  | _ => false

/-- Python truthiness of a decoded JSON value. -/
def pyTruthy : Json → Bool
  | .null => false
  | .bool b => b
  | .num n => n ≠ 0
  | .str s => !s.isEmpty
  | .arr xs => !xs.isEmpty
  | .obj kvs => !kvs.isEmpty

def pyTruthyOpt : Option Json → Bool
  | none => false
  | some v => pyTruthy v

/-- Key present in an object (Python `k in chunk`; chunks are always dicts
because every decoded line starts with a brace). -/
def hasKeyJ : Json → Str → Bool
  | .obj kvs, k => (lookupKey kvs k).isSome
  | _, _ => false

/-- Raw membership lookup on an object (Python `chunk[k]` guarded by `k in chunk`),
keeping stored nulls. -/
def lookupJ : Json → Str → Option Json
  | .obj kvs, k => lookupKey kvs k
  | _, _ => none

/-- Exceptions the Python bodies can raise (uncaught by the parsers). -/
inductive PyExc where
  | attributeError : PyExc
  | typeError : PyExc
  | keyError : PyExc
  | indexError : PyExc

/-- Python `x.get(k, d)`: dict lookup with default; any non-dict receiver
(including `None`) raises `AttributeError`. -/
def jGet (j : Json) (k : Str) (d : Json) : Except PyExc Json :=
  match j with
  | .obj kvs => .ok ((lookupKey kvs k).getD d)
  | _ => .error .attributeError

/-- Python `x.get(k)` (default `None`). -/
def jGetN (j : Json) (k : Str) : Except PyExc Json := jGet j k .null

/-- Python `len(x)`: only sized values; others raise `TypeError`. -/
def pyLen (j : Json) : Except PyExc Nat :=
  match j with
  | .str s => .ok s.length
  | .arr xs => .ok xs.length
  | .obj kvs => .ok kvs.length
  | _ => .error .typeError

/-- Python `x[0]`: list head, 1-char string for strings, `KeyError` on a
dict (JSON keys are strings, never the int `0`). -/
def pyIndex0 (j : Json) : Except PyExc Json :=
  match j with
  | .arr (x :: _) => .ok x
  | .arr [] => .error .indexError
  | .str (c :: _) => .ok (.str [c])
  | .str [] => .error .indexError
  | .obj _ => .error .keyError
  | _ => .error .typeError

/-- Python `for x in v`: lists yield elements, strings yield 1-char strings,
dicts yield their keys; everything else raises `TypeError`. -/
def pyIter (j : Json) : Except PyExc (List Json) :=
  match j with
  | .arr xs => .ok xs
  | .str s => .ok (s.map fun c => .str [c])
  | .obj kvs => .ok (kvs.map fun kv => .str kv.1)
  | _ => .error .typeError

/-- Python `a + b` on decoded values (`bool` is an `int` in Python). -/
def pyAdd (a b : Json) : Except PyExc Json :=
  match a, b with
  | .num x, .num y => .ok (.num (x + y))
  | .num x, .bool y => .ok (.num (x + (if y then 1 else 0)))
  | .bool x, .num y => .ok (.num ((if x then 1 else 0) + y))
  | .bool x, .bool y => .ok (.num ((if x then 1 else 0) + (if y then 1 else 0)))
  | .str x, .str y => .ok (.str (x ++ y))
  | .arr x, .arr y => .ok (.arr (x ++ y))
  | _, _ => .error .typeError

/-- Python `''.join(contents)`: concatenates, raising `TypeError`
at the first non-string element. -/
def pyJoin (xs : List Json) : Except PyExc Str :=
  xs.foldlM (fun acc x =>
    match x with
    | .str s => .ok (acc ++ s)
    | _ => .error .typeError) []

/-- Escapes used by the simplified model of Python `repr` for strings
(enough for printable ASCII content; only reached when the Playground
accumulator stringifies a nested structure, which no claim exercises). -/
def reprEsc (s : Str) : Str :=
  s.flatMap fun c =>
    if c = '\\' then ['\\', '\\']
    else if c = '\'' then ['\\', '\'']
    else if c = '\n' then ['\\', 'n']
    else if c = '\r' then ['\\', 'r']
    else if c = '\t' then ['\\', 't']
    else [c]

mutual
/-- Python `repr` of a decoded JSON value (single-quote string style). -/
def pyRepr : Json → Str
  | .null => toL "None"
  | .bool true => toL "True"
  | .bool false => toL "False"
  | .num n => intStr n
  | .str s => '\'' :: (reprEsc s ++ ['\''])
  | .arr xs => '[' :: (reprList xs ++ [']'])
  | .obj kvs => '\x7b' :: (reprMembers kvs ++ ['\x7d'])

def reprList : List Json → Str
  | [] => []
  | [x] => pyRepr x
  | x :: y :: t => pyRepr x ++ toL ", " ++ reprList (y :: t)

def reprMembers : List (Str × Json) → Str
  | [] => []
  | [(k, v)] => pyRepr (.str k) ++ toL ": " ++ pyRepr v
  | (k, v) :: m :: t => pyRepr (.str k) ++ toL ": " ++ pyRepr v ++ toL ", " ++ reprMembers (m :: t)
end

/-- Python `str(v)`: identity on strings, `repr`-style otherwise. -/
def pyStr : Json → Str
  | .str s => s
  | v => pyRepr v

/-! ### The JSON decoder (`json.loads`), CPython-style messages included.

The decoder mirrors CPython's `json` scanner on the modelled subset:
objects, arrays, strings with escapes, integer numbers, `true`/`false`/
`null`.  Float literals (fraction/exponent) and `NaN`/`Infinity` are
outside the modelled subset and decode to an error.  Error messages
follow CPython's (`"Expecting value: line L column C (char N)"`, ...),
with line/column computed from the original text. -/

def skipWsP : Str → Nat → Str × Nat
  | [], p => ([], p)
  | c :: t, p =>
    if c = ' ' || c = '\t' || c = '\n' || c = '\r' then skipWsP t (p + 1) else (c :: t, p)

/-- Render a CPython `JSONDecodeError` message at a position of the original text. -/
def renderErr (kind : Str) (orig : Str) (pos : Nat) : Str :=
  let pre := orig.take pos
  let line := 1 + pre.count '\n'
  let col := (pre.reverse.takeWhile (fun c => !(c = '\n'))).length + 1
  kind ++ toL ": line " ++ natStr line ++ toL " column " ++ natStr col ++
    toL " (char " ++ natStr pos ++ toL ")"

def escMap (c : Char) : Option Char :=
  if c = '"' then some '"'
  else if c = '\\' then some '\\'
  else if c = '/' then some '/'
  else if c = 'b' then some '\x08'
  else if c = 'f' then some '\x0c'
  else if c = 'n' then some '\n'
  else if c = 'r' then some '\r'
  else if c = 't' then some '\t'
  else none

def hexVal (c : Char) : Option Nat :=
  if '0' ≤ c ∧ c ≤ '9' then some (c.toNat - '0'.toNat)
  else if 'a' ≤ c ∧ c ≤ 'f' then some (c.toNat - 'a'.toNat + 10)
  else if 'A' ≤ c ∧ c ≤ 'F' then some (c.toNat - 'A'.toNat + 10)
  else none

/-- Body of a JSON string, opening quote already consumed.
`startPos` is the position of the opening quote. -/
def parseStringBody (orig : Str) (startPos : Nat) :
    Str → Nat → Str → Except Str (Str × Str × Nat)
  | [], _, _ => .error (renderErr (toL "Unterminated string starting at") orig startPos)
  | c :: rs, pos, acc =>
    if c = '"' then .ok (acc.reverse, rs, pos + 1)
    else if c = '\\' then
      match rs with
      | [] => .error (renderErr (toL "Unterminated string starting at") orig startPos)
      | e :: rs2 =>
        if e = 'u' then
          match rs2 with
          | h1 :: h2 :: h3 :: h4 :: rs3 =>
            match hexVal h1, hexVal h2, hexVal h3, hexVal h4 with
            | some a, some b, some c3, some d =>
              parseStringBody orig startPos rs3 (pos + 6)
                ((Char.ofNat (((a * 16 + b) * 16 + c3) * 16 + d)) :: acc)
            | _, _, _, _ =>
              .error (renderErr (toL "Invalid \\uXXXX escape") orig (pos + 1))
          | _ => .error (renderErr (toL "Invalid \\uXXXX escape") orig (pos + 1))
        else
          match escMap e with
          | some ch => parseStringBody orig startPos rs2 (pos + 2) (ch :: acc)
          | none => .error (renderErr (toL "Invalid \\escape") orig pos)
    else if c.toNat < 0x20 then
      .error (renderErr (toL "Invalid control character at") orig pos)
    else parseStringBody orig startPos rs (pos + 1) (c :: acc)

def natOfDigits (ds : Str) : Nat :=
  ds.foldl (fun acc c => acc * 10 + (c.toNat - '0'.toNat)) 0

/-- CPython `NUMBER_RE` without fraction/exponent; a following `.`/`e`
(a float literal) is a modelling boundary and decodes to an error. -/
def parseNumber (orig : Str) (rest : Str) (pos : Nat) : Except Str (Json × Str × Nat) :=
  let signed : Bool × Str × Nat :=
    match rest with
    | '-' :: t => (true, t, pos + 1)
    | _ => (false, rest, pos)
  match signed with
  | (neg, r1, p1) =>
    match r1 with
    | [] => .error (renderErr (toL "Expecting value") orig pos)
    | c :: t =>
      if c.isDigit then
        let ds : Str := if c = '0' then ['0'] else (c :: t).takeWhile Char.isDigit
        let r2 : Str := if c = '0' then t else (c :: t).dropWhile Char.isDigit
        let p2 : Nat := p1 + ds.length
        match r2 with
        | d :: _ =>
          if d = '.' || d = 'e' || d = 'E' then
            .error (renderErr (toL "float literal outside the modelled JSON subset") orig pos)
          else
            .ok (.num (if neg then -(natOfDigits ds : Int) else (natOfDigits ds : Int)), r2, p2)
        | [] =>
          .ok (.num (if neg then -(natOfDigits ds : Int) else (natOfDigits ds : Int)), r2, p2)
      else .error (renderErr (toL "Expecting value") orig pos)

/-- One pending step of the recursive-descent scanner: a value, the inside
of an object (after `{` / after a comma, at a property name), or the inside
of an array.  A single task type keeps the scanner one structurally
recursive function on fuel, so that it reduces definitionally. -/
inductive PTask where
  | value : Str → Nat → PTask
  | objStart : Str → Nat → PTask
  | members : Str → Nat → Nat → List (Str × Json) → PTask
  | arrStart : Str → Nat → PTask
  | elems : Str → Nat → List Json → PTask

def taskPos : PTask → Nat
  | .value _ p => p
  | .objStart _ p => p
  | .members _ p _ _ => p
  | .arrStart _ p => p
  | .elems _ p _ => p

def parseRun : Nat → Str → PTask → Except Str (Json × Str × Nat)
  | 0, orig, t => .error (renderErr (toL "Expecting value") orig (taskPos t))
  | fuel + 1, orig, t =>
    match t with
    | .value rest pos =>
      (match rest with
       | [] => .error (renderErr (toL "Expecting value") orig pos)
       | c :: rs =>
         if c = '"' then
           match parseStringBody orig pos rs (pos + 1) [] with
           | .ok (s, r1, p1) => .ok (.str s, r1, p1)
           | .error e => .error e
         else if c = '\x7b' then parseRun fuel orig (.objStart rs (pos + 1))
         else if c = '[' then parseRun fuel orig (.arrStart rs (pos + 1))
         else if (toL "true").isPrefixOf (c :: rs) then .ok (.bool true, (c :: rs).drop 4, pos + 4)
         else if (toL "false").isPrefixOf (c :: rs) then .ok (.bool false, (c :: rs).drop 5, pos + 5)
         else if (toL "null").isPrefixOf (c :: rs) then .ok (.null, (c :: rs).drop 4, pos + 4)
         else if c = '-' || c.isDigit then parseNumber orig (c :: rs) pos
         else .error (renderErr (toL "Expecting value") orig pos))
    | .objStart rest pos =>
      (match skipWsP rest pos with
       | (r1, p1) =>
         match r1 with
         | '\x7d' :: r2 => .ok (.obj [], r2, p1 + 1)
         | '"' :: r2 => parseRun fuel orig (.members r2 (p1 + 1) p1 [])
         | _ =>
           .error (renderErr (toL "Expecting property name enclosed in double quotes") orig p1))
    | .members rest pos strStart acc =>
      (match parseStringBody orig strStart rest pos [] with
       | .error e => .error e
       | .ok (k, r1, p1) =>
         match skipWsP r1 p1 with
         | (r2, p2) =>
           match r2 with
           | ':' :: r3 =>
             (match skipWsP r3 (p2 + 1) with
              | (r4, p4) =>
                match parseRun fuel orig (.value r4 p4) with
                | .error e => .error e
                | .ok (v, r5, p5) =>
                  let acc2 := setKey acc k v
                  match skipWsP r5 p5 with
                  | (r6, p6) =>
                    match r6 with
                    | '\x7d' :: r7 => .ok (.obj acc2, r7, p6 + 1)
                    | ',' :: r7 =>
                      (match skipWsP r7 (p6 + 1) with
                       | (r8, p8) =>
                         match r8 with
                         | '"' :: r9 => parseRun fuel orig (.members r9 (p8 + 1) p8 acc2)
                         | _ =>
                           .error (renderErr
                             (toL "Expecting property name enclosed in double quotes") orig p8))
                    | _ => .error (renderErr (toL "Expecting ',' delimiter") orig p6))
           | _ => .error (renderErr (toL "Expecting ':' delimiter") orig p2))
    | .arrStart rest pos =>
      (match skipWsP rest pos with
       | (r1, p1) =>
         match r1 with
         | ']' :: r2 => .ok (.arr [], r2, p1 + 1)
         | _ =>
           match parseRun fuel orig (.value r1 p1) with
           | .error e => .error e
           | .ok (v, r2, p2) => parseRun fuel orig (.elems r2 p2 [v]))
    | .elems rest pos acc =>
      (match skipWsP rest pos with
       | (r1, p1) =>
         match r1 with
         | ']' :: r2 => .ok (.arr acc.reverse, r2, p1 + 1)
         | ',' :: r2 =>
           (match skipWsP r2 (p1 + 1) with
            | (r3, p3) =>
              match parseRun fuel orig (.value r3 p3) with
              | .error e => .error e
              | .ok (v, r4, p4) => parseRun fuel orig (.elems r4 p4 (v :: acc)))
         | _ => .error (renderErr (toL "Expecting ',' delimiter") orig p1))

def parseValue (fuel : Nat) (orig rest : Str) (pos : Nat) : Except Str (Json × Str × Nat) :=
  parseRun fuel orig (.value rest pos)

/-- Python `json.loads`: parse one value, then only whitespace may remain. -/
def jsonDecode (s : Str) : Except Str Json :=
  match skipWsP s 0 with
  | (r0, p0) =>
    match parseValue (2 * s.length + 8) s r0 p0 with
    | .error e => .error e
    | .ok (v, r1, p1) =>
      match skipWsP r1 p1 with
      | ([], _) => .ok v
      | (_, p2) => .error (renderErr (toL "Extra data") s p2)

/-! ### Trailing-JSON extractor (`extract_json_from_text`) -/

def firstBraceAux : Str → Nat → Option Nat
  | [], _ => none
  | c :: t, i => if c = '\x7b' then some i else firstBraceAux t (i + 1)

/-- Python `text.find('{')` (as an `Option` instead of `-1`). -/
def firstBrace (s : Str) : Option Nat := firstBraceAux s 0

/-- The character scan of `extract_json_from_text`: brace depth plus an
in-string flag with backslash-escape handling.  `depth` is a `Nat`: the scan
always begins at a `{` (the first brace), so depth stays positive until the
balanced close is found. -/
def scanLoop : Str → Nat → Nat → Bool → Bool → Option Nat
  | [], _, _, _, _ => none
  | c :: rest, i, depth, inStr, esc =>
    if esc then scanLoop rest (i + 1) depth inStr false
    else if c = '\\' && inStr then scanLoop rest (i + 1) depth inStr true
    else if c = '"' then scanLoop rest (i + 1) depth (!inStr) false
    else if inStr then scanLoop rest (i + 1) depth inStr false
    else if c = '\x7b' then scanLoop rest (i + 1) (depth + 1) inStr false
    else if c = '\x7d' then
      (if depth = 1 then some i else scanLoop rest (i + 1) (depth - 1) inStr false)
    else scanLoop rest (i + 1) depth inStr false

/-- Absolute index of the brace closing the object that starts at `start`. -/
def scanEnd (text : Str) (start : Nat) : Option Nat :=
  scanLoop (text.drop start) start 0 false false

def extract_json_from_text (text : Str) : Option Json :=
  if text.isEmpty then none
  else
    match firstBrace text with
    | none => none
    | some s =>
      match scanEnd text s with
      | none => none
      | some e =>
        match jsonDecode ((text.drop s).take (e - s + 1)) with
        | .ok j => some j
        | .error _ => none

/-! ### Shared SSE line filtering -/

/-- Per-format sentinel sets.  The three named formats Orchestrator,
Anthropic and Gemini share this one. -/
def metaNamed : List Str :=
  [toL "[DONE]", toL "start", toL "end", toL "reserved",
   toL "data: [DONE]", toL "data: start", toL "data: end", toL "data: reserved"]

/-- Playground's sentinel set (no `[DONE]`, with no-space `data:` variants). -/
def metaPlay : List Str :=
  [toL "reserved", toL "start", toL "end",
   toL "data:reserved", toL "data:start", toL "data:end",
   toL "data: reserved", toL "data: start", toL "data: end"]

/-- A line's payload: the stripped line with an optional `data:` prefix
stripped in turn — the `json_str` every accumulator hands to the decoder. -/
def payloadOf (rawLine : Str) : Str :=
  let line := pyStrip rawLine
  if (toL "data:").isPrefixOf line then pyStrip (line.drop 5) else line

/-- The inline line filter every accumulator performs: strip, drop empties /
`event:` lines / sentinels / bare `data:`, strip an optional `data:` prefix,
and require a leading `{`.  Returns the candidate JSON text of the line. -/
def lineToJsonStr (metaMsgs : List Str) (rawLine : Str) : Option Str :=
  let line := pyStrip rawLine
  if line.isEmpty || (toL "event:").isPrefixOf line || metaMsgs.contains line ||
      line = toL "data:" then none
  else
    let jsonStr := payloadOf rawLine
    if jsonStr.isEmpty || metaMsgs.contains jsonStr || !(jsonStr.head? = some '\x7b') then none
    else some jsonStr

/-- The recorded message `f"JSON parse error: {str(e)[:50]}"`. -/
def jsonErrMsg (e : Str) : Str := toL "JSON parse error: " ++ e.take 50

/-- The decoded chunk carried by one line, if any (`none` for filtered lines
and decode failures). -/
def lineChunk (metaMsgs : List Str) (rawLine : Str) : Option Json :=
  match lineToJsonStr metaMsgs rawLine with
  | none => none
  | some js => (jsonDecode js).toOption

/-- Result record shared by all parsers (mirrors the `ParseResult` dataclass;
`detected_format` is only set by the AUTO dispatcher, which no claim touches). -/
structure ParseResult where
  raw_text : Str
  json_data : Option Json
  usage : Option Json
  metadata : Option Json
  chunk_count : Nat
  errors : List Str

/-! ### Orchestrator accumulator (`parse_orchestrator_logs`) -/

structure OrchState where
  contents : List Json
  usage : Option Json
  metadata : Option (List (Str × Json))
  errors : List Str
  chunkCount : Nat

def orchInit : OrchState := ⟨[], none, none, [], 0⟩

def metadataFields : List Str :=
  [toL "id", toL "created", toL "model", toL "object",
   toL "service_tier", toL "system_fingerprint"]

/-- Python `isinstance(v, int)` on a decoded value (`bool` is an `int`). -/
def isPyInt : Json → Bool
  | .num _ => true
  | .bool _ => true
  | _ => false

def intOf : Json → Int
  | .num n => n
  | .bool b => if b then 1 else 0
  | _ => 0

/-- Modelled from the spec: section 4.3 "if `created` is an integer epoch,
additionally compute and store a human-readable formatted timestamp".  The
concrete rendering comes from Python's `datetime` (local-time `strftime`),
which is outside this repository; it is modelled as a placeholder rendering
of the epoch.  No claim depends on its output. -/
def fmtTimestamp (t : Int) : Str := toL "timestamp:" ++ intStr t

/-- First-chunk metadata capture of the Orchestrator accumulator. -/
def orchMetadataOf (chunk : Json) : List (Str × Json) :=
  metadataFields.foldl (fun m fld =>
    match lookupJ chunk fld with
    | none => m
    | some v =>
      if fld = toL "created" && isPyInt v then
        setKey (setKey m (toL "created") v) (toL "created_formatted") (.str (fmtTimestamp (intOf v)))
      else setKey m fld v) []

/-- The update `if 'usage' in chunk and chunk['usage'] is not None: usage = chunk['usage']`. -/
def updOrchUsage (u : Option Json) (chunk : Json) : Option Json :=
  match lookupJ chunk (toL "usage") with
  | some v => if isNull v then u else some v
  | none => u

/-- Content fragments one Orchestrator chunk contributes:
`choices[0].delta.content` plus each `tool_calls[*].function.arguments`. -/
def orchFrags (chunk : Json) : Except PyExc (List Json) := do
  let choices ← jGet chunk (toL "choices") (.arr [])
  if pyTruthy choices then do
    let n ← pyLen choices
    if n > 0 then do
      let c0 ← pyIndex0 choices
      let delta ← jGet c0 (toL "delta") (.obj [])
      let content ← jGetN delta (toL "content")
      let tcs ← jGet delta (toL "tool_calls") (.arr [])
      let items ← pyIter tcs
      let args ← items.foldlM (fun acc tc => do
        let f ← jGet tc (toL "function") (.obj [])
        let a ← jGetN f (toL "arguments")
        pure (if isNull a then acc else acc ++ [a])) ([] : List Json)
      pure ((if isNull content then [] else [content]) ++ args)
    else pure []
  else pure []

def orchBody (st : OrchState) (chunk : Json) : Except PyExc OrchState := do
  let frags ← orchFrags chunk
  pure { contents := st.contents ++ frags,
         usage := updOrchUsage st.usage chunk,
         metadata := match st.metadata with
           | some m => some m
           | none => some (orchMetadataOf chunk),
         errors := st.errors,
         chunkCount := st.chunkCount + 1 }

def orchLine (st : OrchState) (rawLine : Str) : Except PyExc OrchState :=
  match lineToJsonStr metaNamed rawLine with
  | none => .ok st
  | some js =>
    match jsonDecode js with
    | .error e => .ok { st with errors := st.errors ++ [jsonErrMsg e] }
    | .ok chunk => orchBody st chunk

def parseOrchLines (lines : List Str) (st : OrchState) : Except PyExc OrchState :=
  lines.foldlM orchLine st

def parse_orchestrator_logs (raw : Str) : Except PyExc ParseResult := do
  let st ← parseOrchLines (pySplitNl (pyStrip raw)) orchInit
  let fullText ← pyJoin st.contents
  pure { raw_text := fullText,
         json_data := extract_json_from_text fullText,
         usage := st.usage,
         metadata := st.metadata.map .obj,
         chunk_count := st.chunkCount,
         errors := st.errors }

/-! ### Anthropic accumulator (`parse_anthropic_logs`) -/

structure AnthState where
  contents : List Json
  usage : Option (List (Str × Json))
  metadata : Option (List (Str × Json))
  errors : List Str
  chunkCount : Nat

def anthInit : AnthState := ⟨[], none, none, [], 0⟩

/-- Python `v == "lit"` on a decoded value. -/
def isStrJ (j : Json) (s : String) : Bool :=
  match j with
  | .str t => t = toL s
  | _ => false

/-- The `{k: v for k, v in d.items() if v is not None}` comprehension. -/
def filterNonNull (kvs : List (Str × Json)) : List (Str × Json) :=
  kvs.filter fun kv => !(isNull kv.2)

def anthBody (st : AnthState) (chunk : Json) : Except PyExc AnthState := do
  let et ← jGetN chunk (toL "type")
  if isStrJ et "message_start" then do
    let message ← jGet chunk (toL "message") (.obj [])
    let metadata ← match st.metadata with
      | some m => pure (some m)
      | none => do
          let i ← jGetN message (toL "id")
          let t ← jGetN message (toL "type")
          let r ← jGetN message (toL "role")
          let mo ← jGetN message (toL "model")
          pure (some (filterNonNull
            [(toL "id", i), (toL "type", t), (toL "role", r), (toL "model", mo)]))
    let msgUsage ← jGetN message (toL "usage")
    let usage ←
      if pyTruthy msgUsage then do
        let it ← jGetN msgUsage (toL "input_tokens")
        pure (some (setKey (st.usage.getD []) (toL "input_tokens") it))
      else pure st.usage
    pure { st with chunkCount := st.chunkCount + 1, metadata := metadata, usage := usage }
  else if isStrJ et "content_block_delta" then do
    let delta ← jGet chunk (toL "delta") (.obj [])
    let dt ← jGetN delta (toL "type")
    let frags ←
      if isStrJ dt "text_delta" then do
        let t ← jGetN delta (toL "text")
        pure (if isNull t then ([] : List Json) else [t])
      else if isStrJ dt "input_json_delta" then do
        let pj ← jGetN delta (toL "partial_json")
        pure (if isNull pj then ([] : List Json) else [pj])
      else pure []
    pure { st with chunkCount := st.chunkCount + 1, contents := st.contents ++ frags }
  else if isStrJ et "message_delta" then do
    let du ← jGetN chunk (toL "usage")
    let usage ←
      if pyTruthy du then do
        let ot ← jGetN du (toL "output_tokens")
        let u1 := setKey (st.usage.getD []) (toL "output_tokens") ot
        if pyTruthyOpt (lookupKey u1 (toL "input_tokens")) &&
            pyTruthyOpt (lookupKey u1 (toL "output_tokens")) then do
          let s ← pyAdd ((lookupKey u1 (toL "input_tokens")).getD .null)
                        ((lookupKey u1 (toL "output_tokens")).getD .null)
          pure (some (setKey u1 (toL "total_tokens") s))
        else pure (some u1)
      else pure st.usage
    let delta ← jGet chunk (toL "delta") (.obj [])
    let sr ← jGetN delta (toL "stop_reason")
    let metadata :=
      if pyTruthy sr && (match st.metadata with | some m => !m.isEmpty | none => false) then
        st.metadata.map (fun m => setKey m (toL "stop_reason") sr)
      else st.metadata
    pure { st with chunkCount := st.chunkCount + 1, usage := usage, metadata := metadata }
  else if isStrJ et "content_block_start" || isStrJ et "content_block_stop" ||
      isStrJ et "message_stop" then
    pure { st with chunkCount := st.chunkCount + 1 }
  else pure st

def anthLine (st : AnthState) (rawLine : Str) : Except PyExc AnthState :=
  match lineToJsonStr metaNamed rawLine with
  | none => .ok st
  | some js =>
    match jsonDecode js with
    | .error e => .ok { st with errors := st.errors ++ [jsonErrMsg e] }
    | .ok chunk => anthBody st chunk

def parseAnthLines (lines : List Str) (st : AnthState) : Except PyExc AnthState :=
  lines.foldlM anthLine st

def parse_anthropic_logs (raw : Str) : Except PyExc ParseResult := do
  let st ← parseAnthLines (pySplitNl (pyStrip raw)) anthInit
  let fullText ← pyJoin st.contents
  pure { raw_text := fullText,
         json_data := extract_json_from_text fullText,
         usage := st.usage.map .obj,
         metadata := st.metadata.map .obj,
         chunk_count := st.chunkCount,
         errors := st.errors }

/-! ### Gemini accumulator (`parse_gemini_logs`) -/

structure GemState where
  contents : List Str
  lastText : Str
  usage : Option (List (Str × Json))
  metadata : Option (List (Str × Json))
  errors : List Str
  chunkCount : Nat

def gemInit : GemState := ⟨[], [], none, none, [], 0⟩

/-- Gemini's cumulative-text reconciliation for one part text `s`:
if `s` starts with `last`, append only the (nonempty) suffix; otherwise
append the whole text.  Either way `last_text` becomes `s`. -/
def geminiTextStep (contents : List Str) (last : Str) (s : Str) : List Str × Str :=
  if last.isPrefixOf s then
    let delta := s.drop last.length
    (contents ++ (if delta.isEmpty then [] else [delta]), s)
  else (contents ++ [s], s)

def gemBody (st : GemState) (chunk : Json) : Except PyExc GemState := do
  let metadata0 : Option (List (Str × Json)) :=
    match st.metadata with
    | some m => some m
    | none =>
      some (match lookupJ chunk (toL "modelVersion") with
        | some v => [(toL "model", v)]
        | none => [])
  let cands ← jGet chunk (toL "candidates") (.arr [])
  let step ←
    if pyTruthy cands then do
      let n ← pyLen cands
      if n > 0 then do
        let cand ← pyIndex0 cands
        let content ← jGet cand (toL "content") (.obj [])
        let parts ← jGet content (toL "parts") (.arr [])
        let items ← pyIter parts
        let cl ← items.foldlM (fun (acc : List Str × Str) part => do
            let t ← jGetN part (toL "text")
            if isNull t then pure acc
            else
              match t with
              | .str s => pure (geminiTextStep acc.1 acc.2 s)
              | _ => .error PyExc.attributeError) (st.contents, st.lastText)
        let fr ← jGetN cand (toL "finishReason")
        let md :=
          if pyTruthy fr && (match metadata0 with | some m => !m.isEmpty | none => false) then
            metadata0.map (fun m => setKey m (toL "finish_reason") fr)
          else metadata0
        pure (cl.1, cl.2, md)
      else pure (st.contents, st.lastText, metadata0)
    else pure (st.contents, st.lastText, metadata0)
  let um ← jGetN chunk (toL "usageMetadata")
  let usage ←
    if pyTruthy um then do
      let p ← jGetN um (toL "promptTokenCount")
      let c ← jGetN um (toL "candidatesTokenCount")
      let t ← jGetN um (toL "totalTokenCount")
      pure (some (filterNonNull
        [(toL "prompt_tokens", p), (toL "completion_tokens", c), (toL "total_tokens", t)]))
    else pure st.usage
  pure { contents := step.1, lastText := step.2.1, metadata := step.2.2, usage := usage,
         errors := st.errors, chunkCount := st.chunkCount + 1 }

def gemLine (st : GemState) (rawLine : Str) : Except PyExc GemState :=
  match lineToJsonStr metaNamed rawLine with
  | none => .ok st
  | some js =>
    match jsonDecode js with
    | .error e => .ok { st with errors := st.errors ++ [jsonErrMsg e] }
    | .ok chunk => gemBody st chunk

def parseGemLines (lines : List Str) (st : GemState) : Except PyExc GemState :=
  lines.foldlM gemLine st

/-- Gemini's `usage = usage if usage else None` (and the same for metadata). -/
def toOptObj : Option (List (Str × Json)) → Option Json
  | none => none
  | some kvs => if kvs.isEmpty then none else some (.obj kvs)

def parse_gemini_logs (raw : Str) : Except PyExc ParseResult := do
  let st ← parseGemLines (pySplitNl (pyStrip raw)) gemInit
  let fullText := st.contents.flatten
  pure { raw_text := fullText,
         json_data := extract_json_from_text fullText,
         usage := toOptObj st.usage,
         metadata := toOptObj st.metadata,
         chunk_count := st.chunkCount,
         errors := st.errors }

/-! ### Playground accumulator (`parse_playground_logs`) -/

structure PlayState where
  contents : List Str
  errors : List Str
  chunkCount : Nat

def playInit : PlayState := ⟨[], [], 0⟩

/-- Python `path.endswith(suffix)`; non-strings raise `AttributeError`. -/
def pyEndsWith (j : Json) (suffix : Str) : Except PyExc Bool :=
  match j with
  | .str s => .ok (suffix.isSuffixOf s)
  | _ => .error .attributeError

def playBody (st : PlayState) (chunk : Json) : Except PyExc PlayState := do
  let op ← jGetN chunk (toL "op")
  let path ← jGet chunk (toL "path") (.str [])
  let value ← jGetN chunk (toL "value")
  let frags ←
    if isStrJ op "add" then
      match value with
      | .obj kvs =>
        if (lookupKey kvs (toL "content")).isSome then do
          let c := (lookupKey kvs (toL "content")).getD .null
          pure (if isNull c then ([] : List Str) else [pyStr c])
        else do
          let ew ← pyEndsWith path (toL "/content")
          pure (if ew && !(isNull value) then [pyStr value] else [])
      | _ => do
        let ew ← pyEndsWith path (toL "/content")
        pure (if ew && !(isNull value) then [pyStr value] else [])
    else if isStrJ op "append" then do
      let ew ← pyEndsWith path (toL "/content")
      pure (if ew && !(isNull value) then [pyStr value] else [])
    else pure []
  pure { contents := st.contents ++ frags, errors := st.errors,
         chunkCount := st.chunkCount + 1 }

def playLine (st : PlayState) (rawLine : Str) : Except PyExc PlayState :=
  match lineToJsonStr metaPlay rawLine with
  | none => .ok st
  | some js =>
    match jsonDecode js with
    | .error e => .ok { st with errors := st.errors ++ [jsonErrMsg e] }
    | .ok chunk => playBody st chunk

def parsePlayLines (lines : List Str) (st : PlayState) : Except PyExc PlayState :=
  lines.foldlM playLine st

def parse_playground_logs (raw : Str) : Except PyExc ParseResult := do
  let st ← parsePlayLines (pySplitNl (pyStrip raw)) playInit
  let fullText := st.contents.flatten
  pure { raw_text := fullText,
         json_data := extract_json_from_text fullText,
         usage := none,
         metadata := none,
         chunk_count := st.chunkCount,
         errors := st.errors }

/-! ### Format detector (`detect_format`) -/

inductive StreamFormat where
  | AUTO | ORCHESTRATOR | ANTHROPIC | GEMINI | PLAYGROUND | MAS_RESPONSE | CUSTOM
deriving DecidableEq

def detect_format (raw : Str) : StreamFormat :=
  let sample := raw.take 5000
  if containsSub sample (toL "\"type\"") && containsSub sample (toL "\"content_block_delta\"") then
    .ANTHROPIC
  else if containsSub sample (toL "\"type\"") && containsSub sample (toL "\"message_start\"") then
    .ANTHROPIC
  else if containsSub sample (toL "\"candidates\"") && containsSub sample (toL "\"content\"") &&
      containsSub sample (toL "\"parts\"") then
    .GEMINI
  else if containsSub sample (toL "\"event_type\"") && containsSub sample (toL "\"workflow_id\"") then
    .MAS_RESPONSE
  else if containsSub sample (toL "\"node_id\"") && containsSub sample (toL "\"step\"") then
    .MAS_RESPONSE
  else if containsSub sample (toL "\"op\"") &&
      (containsSub sample (toL "\"append\"") || containsSub sample (toL "\"add\"")) &&
      containsSub sample (toL "\"path\"") then
    .PLAYGROUND
  else if containsSub sample (toL "\"choices\"") && containsSub sample (toL "\"delta\"") then
    .ORCHESTRATOR
  else .ORCHESTRATOR

/-! ### Path resolver (`get_nested_value`) -/

def isWordChar (c : Char) : Bool := c.isAlphanum || c = '_'

/-- The negative lookahead `(?![^\[]*\])` of the splitting regex: the dot IS
a separator unless a `]` occurs in the rest with no `[` before it. -/
def dotIsSep : Str → Bool
  | [] => true
  | c :: t => if c = ']' then false else if c = '[' then true else dotIsSep t

def pySplitDotsAux : Str → Str → List Str
  | [], cur => [cur.reverse]
  | c :: t, cur =>
    if c = '.' && dotIsSep t then cur.reverse :: pySplitDotsAux t []
    else pySplitDotsAux t (c :: cur)

/-- The split `re.split(r'\.(?![^\[]*\])', path)`. -/
def pySplitDots (s : Str) : List Str := pySplitDotsAux s []

inductive PathIdx where
  | star : PathIdx
  | idx : Nat → PathIdx

/-- The segment match `re.match(r'(\w+)\[(\*|\d+)\]', part)` — anchored at the start only,
trailing text is ignored (as with Python's `re.match`). -/
def parseArraySeg (part : Str) : Option (Str × PathIdx) :=
  let key := part.takeWhile isWordChar
  if key.isEmpty then none
  else
    match part.drop key.length with
    | '[' :: rest =>
      (match rest with
       | '*' :: ']' :: _ => some (key, .star)
       | _ =>
         let ds := rest.takeWhile Char.isDigit
         if ds.isEmpty then none
         else
           match rest.drop ds.length with
           | ']' :: _ => some (key, .idx (natOfDigits ds))
           | _ => none)
    | _ => none

/-- Collapse a stored JSON null to Python `None` (the traversal cannot tell
a missing key from a null value). -/
def denull : Option Json → Option Json
  | some .null => none
  | o => o

/-- The lookup `current.get(key) if isinstance(current, dict) else None` (with the
null-to-None collapse of the traversal). -/
def keyLookupOf (cur : Json) (key : Str) : Option Json :=
  match cur with
  | .obj kvs => denull (lookupKey kvs key)
  | _ => none

/-- The wildcard case: return the entire list as-is, `None` on a non-list. -/
def starOf : Json → Option Json
  | .arr xs => some (.arr xs)
  | _ => none

/-- Outcome of one segment of the loop: continue with a new running value,
or return from the whole function (the wildcard and every structural
failure return immediately in the Python loop). -/
inductive SegOut where
  | cont : Option Json → SegOut
  | stop : Option Json → SegOut

/-- One iteration of the segment loop of `get_nested_value` on a non-None
running value. -/
def segStep (cur : Json) (part : Str) : SegOut :=
  match parseArraySeg part with
  | some (key, .star) =>
    (match keyLookupOf cur key with
     | none => .stop none
     | some c => .stop (starOf c))
  | some (key, .idx k) =>
    (match keyLookupOf cur key with
     | none => .stop none
     | some (.arr xs) =>
       if k < xs.length then .cont (denull (some (xs.getD k .null))) else .stop none
     | some _ => .stop none)
  | none =>
    (match cur with
     | .obj kvs => .cont (denull (lookupKey kvs part))
     | _ => .stop none)

def contOr : SegOut → (Option Json → Option Json) → Option Json
  | .cont c, f => f c
  | .stop r, _ => r

/-- The segment-evaluation loop of `get_nested_value`; `none` is Python's
`None` for the running value. -/
def resolveSegs : Option Json → List Str → Option Json
  | cur, [] => cur
  | none, _ :: _ => none
  | some cur, part :: rest => contOr (segStep cur part) (fun c => resolveSegs c rest)

def get_nested_value (obj : Json) (path : Str) : Option Json :=
  if path.isEmpty then none
  else
    match obj with
    | .null => none
    | _ => resolveSegs (some obj) (pySplitDots path)

/-! ### Derived notions used by the claim statements -/

/-- The decoded chunks a named-format accumulator (Orchestrator, Anthropic,
Gemini) folds over, in line order. -/
def namedChunks (lines : List Str) : List Json := lines.filterMap (lineChunk metaNamed)

/-! Concrete inputs used by the claims (SSE log excerpts; braces written
with hex escapes). -/

def c2input : Str :=
  toL "data: \x7b\"id\":\"x\",\"model\":\"m\",\"choices\":[\x7b\"delta\":\x7b\"content\":\"Hel\"\x7d\x7d]\x7d\ndata: \x7b\"choices\":[\x7b\"delta\":\x7b\"content\":\"lo\"\x7d\x7d]\x7d\ndata: \x7b\"usage\":\x7b\"total_tokens\":5\x7d\x7d\ndata: [DONE]"

def c1orchInput : Str := toL "data: \x7b\"choices\":[\x7b\"delta\":\x7b\"content\":\"hi\"\x7d\x7d]\x7d"

def c1anthInput : Str :=
  toL "data: \x7b\"type\":\"message_start\",\"message\":\x7b\"usage\":\x7b\"x\":1\x7d\x7d\x7d"

def c1createdInput : Str := toL "data: \x7b\"created\":5\x7d"

def c3input : Str :=
  toL "data: \x7b\"candidates\":[\x7b\"content\":\x7b\"parts\":[\x7b\"text\":\"Hello\"\x7d]\x7d\x7d]\x7d\ndata: \x7b\"candidates\":[\x7b\"content\":\x7b\"parts\":[\x7b\"text\":\"Hello world\"\x7d]\x7d\x7d]\x7d\ndata: \x7b\"candidates\":[\x7b\"content\":\x7b\"parts\":[\x7b\"text\":\"Hello world!\"\x7d]\x7d\x7d]\x7d"

def c4text : Str := toL "prefix \x7b\"a\": \"b\x7dc\", \"d\": 1\x7d suffix"

def c6input : Str :=
  toL "data: \x7b\"choices\":[\x7b\"delta\":\x7b\"content\":\"A\"\x7d\x7d]\x7d\ndata: \x7binvalid\x7d\ndata: \x7b\"choices\":[\x7b\"delta\":\x7b\"content\":\"B\"\x7d\x7d]\x7d"

/-- The single error entry the C6 input produces
(`"JSON parse error: " + str(e)[:50]`, 68 characters long). -/
def c6msg : Str := toL "JSON parse error: Expecting property name enclosed in double quotes:"

def c8zeroInput : Str :=
  toL "\x7b\"type\":\"message_start\",\"message\":\x7b\"usage\":\x7b\"input_tokens\":0\x7d\x7d\x7d\n\x7b\"type\":\"message_delta\",\"usage\":\x7b\"output_tokens\":5\x7d\x7d"

def c9input : Str :=
  toL "data: \x7b\"candidates\":[\x7b\"content\":\x7b\"parts\":[\x7b\"text\":\"A\"\x7d,\x7b\"text\":\"B\"\x7d]\x7d\x7d]\x7d"

def c7anthInput : Str :=
  toL "data: \x7b\"type\":\"content_block_delta\",\"delta\":\x7b\"type\":\"text_delta\",\"text\":\"hi\"\x7d\x7d"

def c7orchInput : Str := toL "\x7b\"choices\":[\x7b\"delta\":\x7b\"content\":\"hi\"\x7d\x7d]\x7d"

def c10playLine : Str := toL "data: \x7b\"op\":\"append\",\"path\":\"/x/content\",\"value\":\"hi\"\x7d"

/-! ### MAS (multi-agent) accumulator (`parse_mas_response_logs`) -/

/-- MAS sentinel set (12 entries, source order of lines 736-740). -/
def metaMas : List Str :=
  [toL "reserved", toL "start", toL "end", toL "[DONE]",
   toL "data:reserved", toL "data:start", toL "data:end", toL "data:[DONE]",
   toL "data: reserved", toL "data: start", toL "data: end", toL "data: [DONE]"]

/-- Python hashability of a decoded value (lists and dicts raise `TypeError`
when used as dict keys). -/
def pyHashable : Json → Bool
  | .arr _ => false
  | .obj _ => false
  | _ => true

/-- Python `==`/hash-key identification restricted to hashable decoded
values (`True == 1` holds since `bool` is an `int`). -/
def jsonKeyEq : Json → Json → Bool
  | .null, .null => true
  | .str a, .str b => a = b
  | .bool a, .bool b => a = b
  | .bool a, .num b => (if a then (1 : Int) else 0) = b
  | .num a, .bool b => a = (if b then (1 : Int) else 0)
  | .num a, .num b => a = b
  | _, _ => false

def hexDigit (n : Nat) : Char :=
  if n < 10 then Char.ofNat ('0'.toNat + n) else Char.ofNat ('a'.toNat + n - 10)

def toHex4 (n : Nat) : Str :=
  [hexDigit (n / 4096 % 16), hexDigit (n / 256 % 16), hexDigit (n / 16 % 16), hexDigit (n % 16)]

/-- String escaping of Python `json.dumps` (default `ensure_ascii=True`:
non-ASCII becomes `\uXXXX`, astral characters a surrogate pair). -/
def dumpEsc (s : Str) : Str :=
  s.flatMap fun c =>
    if c = '"' then ['\\', '"']
    else if c = '\\' then ['\\', '\\']
    else if c = '\n' then ['\\', 'n']
    else if c = '\r' then ['\\', 'r']
    else if c = '\t' then ['\\', 't']
    else if c = '\x08' then ['\\', 'b']
    else if c = '\x0c' then ['\\', 'f']
    else if c.toNat < 0x20 then '\\' :: 'u' :: toHex4 c.toNat
    else if c.toNat ≤ 0x7e then [c]
    else if c.toNat ≤ 0xffff then '\\' :: 'u' :: toHex4 c.toNat
    else
      ('\\' :: 'u' :: toHex4 (0xd800 + (c.toNat - 0x10000) / 1024)) ++
        ('\\' :: 'u' :: toHex4 (0xdc00 + (c.toNat - 0x10000) % 1024))

mutual
/-- Python `json.dumps` with its default separators. -/
def jsonDumps : Json → Str
  | .null => toL "null"
  | .bool true => toL "true"
  | .bool false => toL "false"
  | .num n => intStr n
  | .str s => '"' :: (dumpEsc s ++ ['"'])
  | .arr xs => '[' :: (dumpsList xs ++ [']'])
  | .obj kvs => '\x7b' :: (dumpsMembers kvs ++ ['\x7d'])

def dumpsList : List Json → Str
  | [] => []
  | [x] => jsonDumps x
  | x :: y :: t => jsonDumps x ++ toL ", " ++ dumpsList (y :: t)

def dumpsMembers : List (Str × Json) → Str
  | [] => []
  | [(k, v)] => '"' :: (dumpEsc k ++ ['"']) ++ toL ": " ++ jsonDumps v
  | (k, v) :: m :: t =>
    '"' :: (dumpEsc k ++ ['"']) ++ toL ": " ++ jsonDumps v ++ toL ", " ++ dumpsMembers (m :: t)
end

structure MasState where
  contents : List Json
  usage : Option Json
  metadata : Option (List (Str × Json))
  agents : List (Json × List (Str × Json))
  errors : List Str
  chunkCount : Nat

def masInit : MasState := ⟨[], none, none, [], [], 0⟩

/-- The update `if 'usage' in chunk and chunk['usage']: usage = chunk['usage']`
(note: MAS tests truthiness, not just non-null). -/
def updMasUsage (u : Option Json) (chunk : Json) : Option Json :=
  match lookupJ chunk (toL "usage") with
  | some v => if pyTruthy v then some v else u
  | none => u

def masHasAgent (agents : List (Json × List (Str × Json))) (k : Json) : Bool :=
  agents.any fun a => jsonKeyEq a.1 k

/-- `if node_id and node_id not in agents_seen: agents_seen[node_id] = {...}`
(an unhashable truthy node id raises `TypeError`). -/
def masAgentTrack (agents : List (Json × List (Str × Json))) (nodeId step : Json) :
    Except PyExc (List (Json × List (Str × Json))) :=
  if pyTruthy nodeId then
    if pyHashable nodeId then
      .ok (if masHasAgent agents nodeId then agents
           else agents ++ [(nodeId, [(toL "node_id", nodeId), (toL "first_step", step)])])
    else .error .typeError
  else .ok agents

/-- `agents_seen[node_id]['last_step'] = step` for a known node (no-op when
the node is unknown, matching the membership guard). -/
def masSetLast (agents : List (Json × List (Str × Json))) (nodeId step : Json) :
    List (Json × List (Str × Json)) :=
  agents.map fun a =>
    if jsonKeyEq a.1 nodeId then (a.1, setKey a.2 (toL "last_step") step) else a

/-- Content fragments of one `stream` event: text items' raw `text`, and
`json.dumps(input)` for truthy `tool_use` inputs; non-dict items skipped. -/
def masStreamFrags (items : List Json) : List Json :=
  items.foldl (fun acc item =>
    match item with
    | .obj kvs =>
      (let ct := (lookupKey kvs (toL "type")).getD .null
       if isStrJ ct "text" then
         (let t := (lookupKey kvs (toL "text")).getD .null
          if isNull t then acc else acc ++ [t])
       else if isStrJ ct "tool_use" then
         (let ti := (lookupKey kvs (toL "input")).getD .null
          if pyTruthy ti then acc ++ [.str (jsonDumps ti)] else acc)
       else acc)
    | _ => acc) []

/-- The `event_type` dispatch of the MAS accumulator, producing the updated
contents, metadata and agent map. -/
def masDispatch (contents : List Json) (chunk et : Json)
    (metadata1 : Option (List (Str × Json))) (agents1 : List (Json × List (Str × Json)))
    (nodeId step : Json) :
    Except PyExc (List Json × Option (List (Str × Json)) × List (Json × List (Str × Json))) :=
  if isStrJ et "stream" then do
    let contentList ← jGet chunk (toL "content") (.arr [])
    let items ← pyIter contentList
    pure (contents ++ masStreamFrags items, metadata1, agents1)
  else if isStrJ et "workflow_complete" then do
    let ts ← jGetN chunk (toL "timestamp")
    let md :=
      if (match metadata1 with | some m => !m.isEmpty | none => false) then
        metadata1.map fun m =>
          setKey (setKey m (toL "completed_at") ts) (toL "total_steps") step
      else metadata1
    pure (contents, md, agents1)
  else if isStrJ et "node_complete" then do
    let ag ←
      if pyTruthy nodeId then
        if pyHashable nodeId then .ok (masSetLast agents1 nodeId step)
        else .error PyExc.typeError
      else .ok agents1
    pure (contents, metadata1, ag)
  else pure (contents, metadata1, agents1)

def masBody (st : MasState) (chunk : Json) : Except PyExc MasState := do
  if hasKeyJ chunk (toL "status") &&
      isStrJ ((lookupJ chunk (toL "status")).getD .null) "connected" then
    pure st
  else do
    let et ← jGetN chunk (toL "event_type")
    let workflowId ← jGetN chunk (toL "workflow_id")
    let nodeId ← jGetN chunk (toL "node_id")
    let step ← jGetN chunk (toL "step")
    let metadata1 : Option (List (Str × Json)) :=
      match st.metadata with
      | some m => some m
      | none =>
        some ((if pyTruthy workflowId then [(toL "workflow_id", workflowId)] else []) ++
          (match lookupJ chunk (toL "timestamp") with
           | some ts => [(toL "started_at", ts)]
           | none => []))
    let agents1 ← masAgentTrack st.agents nodeId step
    let cma ← masDispatch st.contents chunk et metadata1 agents1 nodeId step
    pure { contents := cma.1, usage := updMasUsage st.usage chunk, metadata := cma.2.1,
           agents := cma.2.2, errors := st.errors, chunkCount := st.chunkCount + 1 }

def masLine (st : MasState) (rawLine : Str) : Except PyExc MasState :=
  match lineToJsonStr metaMas rawLine with
  | none => .ok st
  | some js =>
    match jsonDecode js with
    | .error e => .ok { st with errors := st.errors ++ [jsonErrMsg e] }
    | .ok chunk => masBody st chunk

def parseMasLines (lines : List Str) (st : MasState) : Except PyExc MasState :=
  lines.foldlM masLine st

/-- The post-loop attachment `if metadata and agents_seen:
metadata['agents'] = list(agents_seen.values());
metadata['agent_count'] = len(agents_seen)`. -/
def masAttachAgents (metadata : Option (List (Str × Json)))
    (agents : List (Json × List (Str × Json))) : Option (List (Str × Json)) :=
  if (match metadata with | some m => !m.isEmpty | none => false) && !agents.isEmpty then
    metadata.map fun m =>
      setKey (setKey m (toL "agents") (.arr (agents.map fun a => .obj a.2)))
        (toL "agent_count") (.num agents.length)
  else metadata

def parse_mas_response_logs (raw : Str) : Except PyExc ParseResult := do
  let st ← parseMasLines (pySplitNl (pyStrip raw)) masInit
  let fullText ← pyJoin st.contents
  pure { raw_text := fullText,
         json_data := extract_json_from_text fullText,
         usage := st.usage,
         metadata := (masAttachAgents st.metadata st.agents).map .obj,
         chunk_count := st.chunkCount,
         errors := st.errors }

/-! ### Frame splitter and the generic extractor
(`extract_sse_chunks`, `parse_with_custom_extractor`) -/

/-- Sentinel set of `extract_sse_chunks` (lines 257-261). -/
def metaExtract : List Str :=
  [toL "[DONE]", toL "start", toL "end", toL "reserved",
   toL "data: [DONE]", toL "data: start", toL "data: end", toL "data: reserved",
   toL "data:[DONE]", toL "data:start", toL "data:end", toL "data:reserved"]

/-- The frame splitter: same per-line filtering, decode failures dropped
silently. -/
def extract_sse_chunks (raw : Str) : List Json :=
  (pySplitNl (pyStrip raw)).filterMap (lineChunk metaExtract)

mutual
/-- Python `==` on decoded values, fueled (dict comparison is key-set based,
so it needs lookups that are not structurally smaller; `sizeOf` of the left
value bounds the fuel any comparison can consume). -/
def pyEqF : Nat → Json → Json → Bool
  | 0, _, _ => false
  | fuel + 1, a, b =>
    match a, b with
    | .null, .null => true
    | .bool x, .bool y => x = y
    | .bool x, .num y => (if x then (1 : Int) else 0) = y
    | .num x, .bool y => x = (if y then (1 : Int) else 0)
    | .num x, .num y => x = y
    | .str x, .str y => x = y
    | .arr xs, .arr ys => pyEqListF fuel xs ys
    | .obj xs, .obj ys => xs.length = ys.length && pyEqMembersF fuel xs ys
    | _, _ => false

def pyEqListF : Nat → List Json → List Json → Bool
  | _, [], [] => true
  | 0, _ :: _, _ => false
  | fuel + 1, x :: xs, y :: ys => pyEqF fuel x y && pyEqListF fuel xs ys
  | _, _, _ => false

def pyEqMembersF : Nat → List (Str × Json) → List (Str × Json) → Bool
  | _, [], _ => true
  | 0, _ :: _, _ => false
  | fuel + 1, (k, v) :: t, ys =>
    (match lookupKey ys k with
     | some w => pyEqF fuel v w
     | none => false) && pyEqMembersF fuel t ys
end

mutual
/-- Structural size of a decoded value, bounding the fuel `pyEqF` consumes. -/
def jsonSize : Json → Nat
  | .null => 1
  | .bool _ => 1
  | .num _ => 1
  | .str _ => 1
  | .arr xs => 1 + jsonSizeList xs
  | .obj kvs => 1 + jsonSizeMembers kvs

def jsonSizeList : List Json → Nat
  | [] => 0
  | x :: t => jsonSize x + 1 + jsonSizeList t

def jsonSizeMembers : List (Str × Json) → Nat
  | [] => 0
  | (_, v) :: t => jsonSize v + 1 + jsonSizeMembers t
end

def pyEq (a b : Json) : Bool := pyEqF (jsonSize a + 1) a b

/-- The `CustomExtractor` rule set (`name` plays no role in extraction). -/
structure CustomExtractor where
  name : Str
  content_paths : List Str
  usage_path : Option Str
  metadata_paths : List (Str × Str)
  event_filter : Option (List (Str × Json))

/-- `extractor.usage_path` when truthy (`None` and the empty string are
falsy and disable usage capture). -/
def activeUsagePath (ex : CustomExtractor) : Option Str :=
  match ex.usage_path with
  | some p => if p.isEmpty then none else some p
  | none => none

/-- The `if extractor.event_filter:` guard: every filter key must compare
equal (Python `==`) to the chunk's value at that key. -/
def custFilterOk (ex : CustomExtractor) (chunk : Json) : Bool :=
  match ex.event_filter with
  | none => true
  | some fl =>
    if fl.isEmpty then true
    else fl.all fun kv => pyEq ((lookupJ chunk kv.1).getD .null) kv.2

/-- Content fragments one chunk contributes under the content paths:
the string form of every non-null list element, or of the value itself. -/
def custContentFrags (ex : CustomExtractor) (chunk : Json) : List Str :=
  ex.content_paths.foldl (fun acc path =>
    match get_nested_value chunk path with
    | none => acc
    | some v =>
      match v with
      | .arr xs => acc ++ xs.filterMap fun x => if isNull x then none else some (pyStr x)
      | _ => acc ++ [pyStr v]) []

structure CustState where
  contents : List Str
  usage : Option Json
  metadata : Option (List (Str × Json))
  chunkCount : Nat

def custInit : CustState := ⟨[], none, none, 0⟩

/-- One fold step of the generic extractor (pure: nothing in it can raise). -/
def custStep (ex : CustomExtractor) (st : CustState) (chunk : Json) : CustState :=
  if custFilterOk ex chunk then
    { contents := st.contents ++ custContentFrags ex chunk,
      usage :=
        match activeUsagePath ex, st.usage with
        | some p, none => get_nested_value chunk p
        | _, _ => st.usage,
      metadata :=
        match st.metadata with
        | some m => some m
        | none =>
          if ex.metadata_paths.isEmpty then none
          else
            (let m := ex.metadata_paths.foldl (fun acc kv =>
              match get_nested_value chunk kv.2 with
              | some v => setKey acc kv.1 v
              | none => acc) []
             if m.isEmpty then none else some m),
      chunkCount := st.chunkCount + 1 }
  else st

def parse_with_custom_extractor (raw : Str) (ex : CustomExtractor) : ParseResult :=
  let st := (extract_sse_chunks raw).foldl (custStep ex) custInit
  let fullText := st.contents.flatten
  { raw_text := fullText,
    json_data := extract_json_from_text fullText,
    usage := st.usage,
    metadata := st.metadata.map .obj,
    chunk_count := st.chunkCount,
    errors := [] }

/-! Additional concrete inputs for the C1 counterexamples. -/

def c1anthTotalInput : Str :=
  toL "\x7b\"type\":\"message_start\",\"message\":\x7b\"usage\":\x7b\"input_tokens\":3\x7d\x7d\x7d\n\x7b\"type\":\"message_delta\",\"usage\":\x7b\"output_tokens\":5\x7d\x7d"

def c1masEmptyInput : Str := toL "\x7b\"event_type\":\"stream\",\"content\":[]\x7d"

def c1masAgentsInput : Str :=
  toL "\x7b\"event_type\":\"stream\",\"workflow_id\":\"w\",\"node_id\":\"n\",\"step\":1,\"content\":[]\x7d"

def c6line : Str := toL "data: \x7binvalid\x7d"

/-- The decoded chunks the MAS accumulator folds over, in line order. -/
def masChunks (lines : List Str) : List Json := lines.filterMap (lineChunk metaMas)

/-- CPython's decode error for the line `{invalid}`. -/
def c6err : Str :=
  toL "Expecting property name enclosed in double quotes: line 1 column 2 (char 1)"

def c1masUsageInput : Str := toL "\x7b\"event_type\":\"x\",\"usage\":\x7b\"t\":2\x7d\x7d"

def c1jsonInput : Str :=
  toL "data: \x7b\"choices\":[\x7b\"delta\":\x7b\"content\":\"\x7b\\\"a\\\": 1\x7d\"\x7d\x7d]\x7d"

/-- A small extractor exercising the generic-extractor claims
(OpenAI-shaped content path, usage path, one metadata path, no filter). -/
def cwExtractor : CustomExtractor :=
  ⟨toL "t", [toL "choices[0].delta.content"], some (toL "usage"), [(toL "id", toL "id")], none⟩

/-! ## Helper lemmas -/

theorem exceptBindOk {ε α β : Type} {x : Except ε α} {f : α → Except ε β} {b : β}
    (h : x >>= f = .ok b) : ∃ a, x = .ok a ∧ f a = .ok b := by
  cases x with
  | error e => simp [Bind.bind, Except.bind] at h
  | ok a => exact ⟨a, rfl, by simpa [Bind.bind, Except.bind] using h⟩

theorem lookupKey_setKey (l : List (Str × Json)) (k : Str) (v : Json) (q : Str) :
    lookupKey (setKey l k v) q = if q = k then some v else lookupKey l q := by
  induction l with
  | nil =>
    by_cases h : q = k
    · subst h; simp [setKey, lookupKey]
    · simp [setKey, lookupKey, h, Ne.symm h]
  | cons kv t ih =>
    obtain ⟨k0, v0⟩ := kv
    by_cases h0 : k0 = k
    · subst h0
      by_cases hq : q = k0
      · subst hq; simp [setKey, lookupKey]
      · simp [setKey, lookupKey, hq, Ne.symm hq]
    · by_cases hq : q = k0
      · subst hq
        simp [setKey, lookupKey, h0, Ne.symm h0]
      · simp [setKey, lookupKey, h0, Ne.symm hq, hq, ih]

theorem orchBody_ok {st : OrchState} {c : Json} {st' : OrchState}
    (h : orchBody st c = .ok st') :
    st'.usage = updOrchUsage st.usage c ∧
    st'.metadata = (match st.metadata with
      | some m => some m
      | none => some (orchMetadataOf c)) ∧
    st'.errors = st.errors ∧ st'.chunkCount = st.chunkCount + 1 := by
  unfold orchBody at h
  obtain ⟨frags, _, h2⟩ := exceptBindOk h
  cases h2
  exact ⟨rfl, rfl, rfl, rfl⟩

theorem orchLine_none {st st' : OrchState} {l : Str}
    (hc : lineChunk metaNamed l = none) (h : orchLine st l = .ok st') :
    st'.usage = st.usage ∧ st'.metadata = st.metadata := by
  unfold orchLine at h
  unfold lineChunk at hc
  cases hjs : lineToJsonStr metaNamed l with
  | none =>
    simp only [hjs] at h
    cases h
    exact ⟨rfl, rfl⟩
  | some js =>
    simp only [hjs] at h hc
    cases hd : jsonDecode js with
    | error e =>
      simp only [hd] at h
      cases h
      exact ⟨rfl, rfl⟩
    | ok c =>
      simp only [hd, Except.toOption] at hc
      exact Option.noConfusion hc

theorem orchLine_some {st : OrchState} {l : Str} {c : Json}
    (hc : lineChunk metaNamed l = some c) :
    orchLine st l = orchBody st c := by
  unfold orchLine
  unfold lineChunk at hc
  cases hjs : lineToJsonStr metaNamed l with
  | none => exact Option.noConfusion (by simpa only [hjs] using hc)
  | some js =>
    simp only [hjs] at hc
    cases hd : jsonDecode js with
    | error e =>
      simp only [hd, Except.toOption] at hc
      exact Option.noConfusion hc
    | ok c0 =>
      simp only [hd, Except.toOption] at hc
      injection hc with hcc
      subst hcc
      simp only [hjs, hd]

theorem parseOrchLines_cons (l : Str) (ls : List Str) (st : OrchState) :
    parseOrchLines (l :: ls) st = orchLine st l >>= fun s => parseOrchLines ls s := by
  simp [parseOrchLines, List.foldlM_cons]

theorem parseOrchLines_usage (lines : List Str) (st st' : OrchState)
    (h : parseOrchLines lines st = .ok st') (u : Json) (hu : st'.usage = some u) :
    st.usage = some u ∨
      ∃ c ∈ namedChunks lines, lookupJ c (toL "usage") = some u ∧ isNull u = false := by
  induction lines generalizing st with
  | nil =>
    simp [parseOrchLines, List.foldlM_nil] at h
    cases h
    exact .inl hu
  | cons l ls ih =>
    rw [parseOrchLines_cons] at h
    obtain ⟨s1, h1, h2⟩ := exceptBindOk h
    rcases ih s1 h2 with hl | ⟨c, hmem, hc⟩
    · cases hcl : lineChunk metaNamed l with
      | none =>
        obtain ⟨he, _⟩ := orchLine_none hcl h1
        exact .inl (he ▸ hl)
      | some c =>
        rw [orchLine_some hcl] at h1
        obtain ⟨he, -, -, -⟩ := orchBody_ok h1
        rw [hl] at he
        unfold updOrchUsage at he
        cases hlk : lookupJ c (toL "usage") with
        | none =>
          simp only [hlk] at he
          exact .inl he.symm
        | some v =>
          simp only [hlk] at he
          by_cases hv : isNull v = true
          · simp only [if_pos hv] at he
            exact .inl he.symm
          · simp only [if_neg hv] at he
            injection he with huv
            subst huv
            refine .inr ⟨c, ?_, hlk, ?_⟩
            · simp [namedChunks, List.filterMap_cons, hcl]
            · simpa using hv
    · refine .inr ⟨c, ?_, hc⟩
      unfold namedChunks at hmem ⊢
      cases hcl : lineChunk metaNamed l <;>
        simp [List.filterMap_cons, hcl, hmem]

theorem parseOrchLines_meta (lines : List Str) (st st' : OrchState)
    (h : parseOrchLines lines st = .ok st') (hm : st'.metadata ≠ none) :
    st.metadata ≠ none ∨ namedChunks lines ≠ [] := by
  induction lines generalizing st with
  | nil =>
    simp [parseOrchLines, List.foldlM_nil] at h
    cases h
    exact .inl hm
  | cons l ls ih =>
    rw [parseOrchLines_cons] at h
    obtain ⟨s1, h1, h2⟩ := exceptBindOk h
    cases hcl : lineChunk metaNamed l with
    | none =>
      rcases ih s1 h2 with hl | hr
      · obtain ⟨_, he⟩ := orchLine_none hcl h1
        exact .inl (he ▸ hl)
      · refine .inr ?_
        unfold namedChunks at hr ⊢
        simpa [List.filterMap_cons, hcl] using hr
    | some c =>
      refine .inr ?_
      simp [namedChunks, List.filterMap_cons, hcl]

theorem anthLine_none {st st' : AnthState} {l : Str}
    (hc : lineChunk metaNamed l = none) (h : anthLine st l = .ok st') :
    st'.usage = st.usage ∧ st'.metadata = st.metadata := by
  unfold anthLine at h
  unfold lineChunk at hc
  cases hjs : lineToJsonStr metaNamed l with
  | none =>
    simp only [hjs] at h
    cases h
    exact ⟨rfl, rfl⟩
  | some js =>
    simp only [hjs] at h hc
    cases hd : jsonDecode js with
    | error e =>
      simp only [hd] at h
      cases h
      exact ⟨rfl, rfl⟩
    | ok c =>
      simp only [hd, Except.toOption] at hc
      exact Option.noConfusion hc

theorem parseAnthLines_cons (l : Str) (ls : List Str) (st : AnthState) :
    parseAnthLines (l :: ls) st = anthLine st l >>= fun s => parseAnthLines ls s := by
  simp [parseAnthLines, List.foldlM_cons]

theorem parseAnthLines_src (lines : List Str) (st st' : AnthState)
    (h : parseAnthLines lines st = .ok st')
    (hx : st'.usage ≠ none ∨ st'.metadata ≠ none) :
    (st.usage ≠ none ∨ st.metadata ≠ none) ∨ namedChunks lines ≠ [] := by
  induction lines generalizing st with
  | nil =>
    simp [parseAnthLines, List.foldlM_nil] at h
    cases h
    exact .inl hx
  | cons l ls ih =>
    rw [parseAnthLines_cons] at h
    obtain ⟨s1, h1, h2⟩ := exceptBindOk h
    cases hcl : lineChunk metaNamed l with
    | none =>
      rcases ih s1 h2 with hl | hr
      · obtain ⟨hu, hm⟩ := anthLine_none hcl h1
        exact .inl (by rw [← hu, ← hm]; exact hl)
      · refine .inr ?_
        unfold namedChunks at hr ⊢
        simpa [List.filterMap_cons, hcl] using hr
    | some c =>
      refine .inr ?_
      simp [namedChunks, List.filterMap_cons, hcl]

theorem parse_orch_inv {raw : Str} {r : ParseResult}
    (h : parse_orchestrator_logs raw = .ok r) :
    ∃ st, parseOrchLines (pySplitNl (pyStrip raw)) orchInit = .ok st ∧
      r.usage = st.usage ∧ r.metadata = st.metadata.map .obj ∧
      r.json_data = extract_json_from_text r.raw_text := by
  unfold parse_orchestrator_logs at h
  obtain ⟨st, h1, h2⟩ := exceptBindOk h
  obtain ⟨txt, h3, h4⟩ := exceptBindOk h2
  cases h4
  exact ⟨st, h1, rfl, rfl, rfl⟩

theorem parse_anth_inv {raw : Str} {r : ParseResult}
    (h : parse_anthropic_logs raw = .ok r) :
    ∃ st, parseAnthLines (pySplitNl (pyStrip raw)) anthInit = .ok st ∧
      r.usage = st.usage.map .obj ∧ r.metadata = st.metadata.map .obj ∧
      r.json_data = extract_json_from_text r.raw_text := by
  unfold parse_anthropic_logs at h
  obtain ⟨st, h1, h2⟩ := exceptBindOk h
  obtain ⟨txt, h3, h4⟩ := exceptBindOk h2
  cases h4
  exact ⟨st, h1, rfl, rfl, rfl⟩

theorem parse_gem_inv {raw : Str} {r : ParseResult}
    (h : parse_gemini_logs raw = .ok r) :
    ∃ st, parseGemLines (pySplitNl (pyStrip raw)) gemInit = .ok st ∧
      r.usage = toOptObj st.usage ∧ r.metadata = toOptObj st.metadata ∧
      r.json_data = extract_json_from_text r.raw_text := by
  unfold parse_gemini_logs at h
  obtain ⟨st, h1, h2⟩ := exceptBindOk h
  cases h2
  exact ⟨st, h1, rfl, rfl, rfl⟩

theorem parse_play_inv {raw : Str} {r : ParseResult}
    (h : parse_playground_logs raw = .ok r) :
    r.usage = none ∧ r.metadata = none ∧
    r.json_data = extract_json_from_text r.raw_text := by
  unfold parse_playground_logs at h
  obtain ⟨st, h1, h2⟩ := exceptBindOk h
  cases h2
  exact ⟨rfl, rfl, rfl⟩

theorem parse_mas_inv {raw : Str} {r : ParseResult}
    (h : parse_mas_response_logs raw = .ok r) :
    ∃ st, parseMasLines (pySplitNl (pyStrip raw)) masInit = .ok st ∧
      r.usage = st.usage ∧
      r.metadata = (masAttachAgents st.metadata st.agents).map .obj ∧
      r.json_data = extract_json_from_text r.raw_text := by
  unfold parse_mas_response_logs at h
  obtain ⟨st, h1, h2⟩ := exceptBindOk h
  obtain ⟨txt, h3, h4⟩ := exceptBindOk h2
  cases h4
  exact ⟨st, h1, rfl, rfl, rfl⟩

theorem extract_needs_text {t : Str} (h : extract_json_from_text t ≠ none) : t ≠ [] := by
  intro ht
  rw [ht] at h
  exact h rfl

theorem toOptObj_cases (o : Option (List (Str × Json))) :
    toOptObj o = none ∨ ∃ kvs, kvs ≠ [] ∧ toOptObj o = some (.obj kvs) := by
  cases o with
  | none => exact .inl rfl
  | some kvs =>
    cases kvs with
    | nil => exact .inl rfl
    | cons kv t => exact .inr ⟨kv :: t, by simp, by simp [toOptObj]⟩

theorem gemLine_none {st st' : GemState} {l : Str}
    (hc : lineChunk metaNamed l = none) (h : gemLine st l = .ok st') :
    st'.usage = st.usage ∧ st'.metadata = st.metadata := by
  unfold gemLine at h
  unfold lineChunk at hc
  cases hjs : lineToJsonStr metaNamed l with
  | none =>
    simp only [hjs] at h
    cases h
    exact ⟨rfl, rfl⟩
  | some js =>
    simp only [hjs] at h hc
    cases hd : jsonDecode js with
    | error e =>
      simp only [hd] at h
      cases h
      exact ⟨rfl, rfl⟩
    | ok c =>
      simp only [hd, Except.toOption] at hc
      exact Option.noConfusion hc

theorem parseGemLines_cons (l : Str) (ls : List Str) (st : GemState) :
    parseGemLines (l :: ls) st = gemLine st l >>= fun s => parseGemLines ls s := by
  simp [parseGemLines, List.foldlM_cons]

theorem parseGemLines_src (lines : List Str) (st st' : GemState)
    (h : parseGemLines lines st = .ok st')
    (hx : st'.usage ≠ none ∨ st'.metadata ≠ none) :
    (st.usage ≠ none ∨ st.metadata ≠ none) ∨ namedChunks lines ≠ [] := by
  induction lines generalizing st with
  | nil =>
    simp [parseGemLines, List.foldlM_nil] at h
    cases h
    exact .inl hx
  | cons l ls ih =>
    rw [parseGemLines_cons] at h
    obtain ⟨s1, h1, h2⟩ := exceptBindOk h
    cases hcl : lineChunk metaNamed l with
    | none =>
      rcases ih s1 h2 with hl | hr
      · obtain ⟨hu, hm⟩ := gemLine_none hcl h1
        exact .inl (by rw [← hu, ← hm]; exact hl)
      · refine .inr ?_
        unfold namedChunks at hr ⊢
        simpa [List.filterMap_cons, hcl] using hr
    | some c =>
      refine .inr ?_
      simp [namedChunks, List.filterMap_cons, hcl]

theorem masLine_none {st st' : MasState} {l : Str}
    (hc : lineChunk metaMas l = none) (h : masLine st l = .ok st') :
    st'.usage = st.usage ∧ st'.metadata = st.metadata := by
  unfold masLine at h
  unfold lineChunk at hc
  cases hjs : lineToJsonStr metaMas l with
  | none =>
    simp only [hjs] at h
    cases h
    exact ⟨rfl, rfl⟩
  | some js =>
    simp only [hjs] at h hc
    cases hd : jsonDecode js with
    | error e =>
      simp only [hd] at h
      cases h
      exact ⟨rfl, rfl⟩
    | ok c =>
      simp only [hd, Except.toOption] at hc
      exact Option.noConfusion hc

theorem masLine_some {st : MasState} {l : Str} {c : Json}
    (hc : lineChunk metaMas l = some c) :
    masLine st l = masBody st c := by
  unfold masLine
  unfold lineChunk at hc
  cases hjs : lineToJsonStr metaMas l with
  | none => exact Option.noConfusion (by simpa only [hjs] using hc)
  | some js =>
    simp only [hjs] at hc
    cases hd : jsonDecode js with
    | error e =>
      simp only [hd, Except.toOption] at hc
      exact Option.noConfusion hc
    | ok c0 =>
      simp only [hd, Except.toOption] at hc
      injection hc with hcc
      subst hcc
      simp only [hjs, hd]

theorem masBody_ok_usage {st : MasState} {c : Json} {st' : MasState}
    (h : masBody st c = .ok st') :
    st'.usage = st.usage ∨ st'.usage = updMasUsage st.usage c := by
  unfold masBody at h
  split at h
  · cases h
    exact .inl rfl
  · obtain ⟨et, h1, h⟩ := exceptBindOk h
    obtain ⟨wf, h2, h⟩ := exceptBindOk h
    obtain ⟨nd, h3, h⟩ := exceptBindOk h
    obtain ⟨stp, h4, h⟩ := exceptBindOk h
    obtain ⟨ag1, h5, h⟩ := exceptBindOk h
    obtain ⟨cma, h6, h⟩ := exceptBindOk h
    cases h
    exact .inr rfl

theorem updMasUsage_src {u0 : Option Json} {c : Json} {u : Json}
    (h : updMasUsage u0 c = some u) :
    u0 = some u ∨ (lookupJ c (toL "usage") = some u ∧ pyTruthy u = true) := by
  unfold updMasUsage at h
  cases hlk : lookupJ c (toL "usage") with
  | none =>
    simp only [hlk] at h
    exact .inl h
  | some v =>
    simp only [hlk] at h
    by_cases hv : pyTruthy v = true
    · rw [if_pos hv] at h
      injection h with hh
      subst hh
      exact .inr ⟨rfl, hv⟩
    · rw [if_neg hv] at h
      exact .inl h

theorem parseMasLines_cons (l : Str) (ls : List Str) (st : MasState) :
    parseMasLines (l :: ls) st = masLine st l >>= fun s => parseMasLines ls s := by
  simp [parseMasLines, List.foldlM_cons]

theorem parseMasLines_usage (lines : List Str) (st st' : MasState)
    (h : parseMasLines lines st = .ok st') (u : Json) (hu : st'.usage = some u) :
    st.usage = some u ∨
      ∃ c ∈ masChunks lines, lookupJ c (toL "usage") = some u ∧ pyTruthy u = true := by
  induction lines generalizing st with
  | nil =>
    simp [parseMasLines, List.foldlM_nil] at h
    cases h
    exact .inl hu
  | cons l ls ih =>
    rw [parseMasLines_cons] at h
    obtain ⟨s1, h1, h2⟩ := exceptBindOk h
    rcases ih s1 h2 with hl | ⟨c, hmem, hc⟩
    · cases hcl : lineChunk metaMas l with
      | none =>
        obtain ⟨he, -⟩ := masLine_none hcl h1
        exact .inl (he ▸ hl)
      | some c =>
        rw [masLine_some hcl] at h1
        rcases masBody_ok_usage h1 with he | he
        · exact .inl (by rw [← he]; exact hl)
        · rw [hl] at he
          rcases updMasUsage_src he.symm with h0 | ⟨hlk, ht⟩
          · exact .inl h0
          · refine .inr ⟨c, ?_, hlk, ht⟩
            simp [masChunks, List.filterMap_cons, hcl]
    · refine .inr ⟨c, ?_, hc⟩
      unfold masChunks at hmem ⊢
      cases hcl : lineChunk metaMas l <;>
        simp [List.filterMap_cons, hcl, hmem]

theorem parseMasLines_meta (lines : List Str) (st st' : MasState)
    (h : parseMasLines lines st = .ok st') (hm : st'.metadata ≠ none) :
    st.metadata ≠ none ∨ masChunks lines ≠ [] := by
  induction lines generalizing st with
  | nil =>
    simp [parseMasLines, List.foldlM_nil] at h
    cases h
    exact .inl hm
  | cons l ls ih =>
    rw [parseMasLines_cons] at h
    obtain ⟨s1, h1, h2⟩ := exceptBindOk h
    cases hcl : lineChunk metaMas l with
    | none =>
      rcases ih s1 h2 with hl | hr
      · obtain ⟨-, he⟩ := masLine_none hcl h1
        exact .inl (he ▸ hl)
      · refine .inr ?_
        unfold masChunks at hr ⊢
        simpa [List.filterMap_cons, hcl] using hr
    | some c =>
      refine .inr ?_
      simp [masChunks, List.filterMap_cons, hcl]

theorem masAttachAgents_none (agents : List (Json × List (Str × Json))) :
    masAttachAgents none agents = none := by
  simp [masAttachAgents]

theorem custStep_usage {ex : CustomExtractor} {st : CustState} {c : Json} {u : Json}
    (h : (custStep ex st c).usage = some u) :
    st.usage = some u ∨
      ∃ p, activeUsagePath ex = some p ∧ get_nested_value c p = some u := by
  unfold custStep at h
  split at h
  · cases hap : activeUsagePath ex with
    | none =>
      simp only [hap] at h
      exact .inl h
    | some p =>
      cases hu0 : st.usage with
      | none =>
        simp only [hap, hu0] at h
        exact .inr ⟨p, rfl, h⟩
      | some v =>
        simp only [hap, hu0] at h
        exact .inl h
  · exact .inl h

theorem custFold_usage (ex : CustomExtractor) (chunks : List Json) (st : CustState)
    (u : Json) (h : (chunks.foldl (custStep ex) st).usage = some u) :
    st.usage = some u ∨
      ∃ c ∈ chunks, ∃ p, activeUsagePath ex = some p ∧ get_nested_value c p = some u := by
  induction chunks generalizing st with
  | nil => exact .inl h
  | cons c cs ih =>
    rcases ih (custStep ex st c) (by simpa [List.foldl_cons] using h) with h0 | ⟨c2, hm, hp⟩
    · rcases custStep_usage h0 with h1 | ⟨p, hap, hg⟩
      · exact .inl h1
      · exact .inr ⟨c, List.mem_cons_self c cs, p, hap, hg⟩
    · exact .inr ⟨c2, List.mem_cons_of_mem _ hm, hp⟩

theorem custStep_meta {ex : CustomExtractor} {st : CustState} {c : Json}
    {m : List (Str × Json)} (h : (custStep ex st c).metadata = some m)
    (hst : ∀ m0, st.metadata = some m0 → m0 ≠ []) : m ≠ [] := by
  unfold custStep at h
  split at h
  · cases hm0 : st.metadata with
    | some m0 =>
      simp only [hm0] at h
      injection h with hh
      exact hh ▸ hst m0 hm0
    | none =>
      simp only [hm0] at h
      by_cases hmp : ex.metadata_paths.isEmpty
      · simp [hmp] at h
      · simp only [hmp, Bool.false_eq_true, if_false] at h
        split at h
        · exact Option.noConfusion h
        · injection h with hh
          subst hh
          simp_all [List.isEmpty_iff]
  · exact hst m h

theorem custFold_meta (ex : CustomExtractor) (chunks : List Json) (st : CustState)
    (hst : ∀ m0, st.metadata = some m0 → m0 ≠ []) (m : List (Str × Json))
    (h : (chunks.foldl (custStep ex) st).metadata = some m) : m ≠ [] := by
  induction chunks generalizing st with
  | nil => exact hst m h
  | cons c cs ih =>
    exact ih (custStep ex st c) (fun m0 hm0 => custStep_meta hm0 hst)
      (by simpa [List.foldl_cons] using h)

/-! ## Claim theorems -/

/-- Claim C2: on the four specified Orchestrator lines the parse yields
`raw_text = "Hello"`, `chunk_count = 3` (the `[DONE]` sentinel is not
counted), `usage = {"total_tokens": 5}`, and metadata `{"id": "x",
"model": "m"}` from the first chunk with absent keys omitted; moreover a
chunk carrying a non-null `usage` value always overwrites the running
usage (last-write-wins). -/
theorem claim_C2 :
    parse_orchestrator_logs c2input = .ok
      ⟨toL "Hello", none, some (.obj [(toL "total_tokens", .num 5)]),
       some (.obj [(toL "id", .str (toL "x")), (toL "model", .str (toL "m"))]), 3, []⟩ ∧
    (∀ (st : OrchState) (chunk : Json) (st' : OrchState) (v : Json),
      orchBody st chunk = .ok st' → lookupJ chunk (toL "usage") = some v →
      isNull v = false → st'.usage = some v) := by
  refine ⟨rfl, ?_⟩
  intro st chunk st' v hb hlk hv
  obtain ⟨he, -, -, -⟩ := orchBody_ok hb
  rw [he]
  unfold updOrchUsage
  simp only [hlk, hv]
  simp

theorem claim_C2_witness :
    orchBody ⟨[], some (.num 1), none, [], 0⟩
        (.obj [(toL "usage", .obj [(toL "total_tokens", .num 5)])]) =
      .ok ⟨[], some (.obj [(toL "total_tokens", .num 5)]), some [], [], 1⟩ ∧
    (⟨[], some (.obj [(toL "total_tokens", .num 5)]), some [], [], 1⟩ : OrchState).usage =
      some (.obj [(toL "total_tokens", .num 5)]) := by
  refine ⟨rfl, ?_⟩
  exact claim_C2.2 ⟨[], some (.num 1), none, [], 0⟩
    (.obj [(toL "usage", .obj [(toL "total_tokens", .num 5)])]) _ _ rfl rfl rfl

/-- Claim C3: the Gemini cumulative-diff step appends exactly the suffix
beyond `last_text` when the new text extends it, and the whole text
otherwise (setting `last_text` to the new text in both cases); on the
three cumulative chunks "Hello" / "Hello world" / "Hello world!" the
accumulated fragments are "Hello", " world", "!" and the result text is
"Hello world!" with no duplication. -/
theorem claim_C3 :
    (∀ (contents : List Str) (last s : Str), last.isPrefixOf s = true →
      geminiTextStep contents last s =
        (contents ++ (if (s.drop last.length).isEmpty then [] else [s.drop last.length]), s)) ∧
    (∀ (contents : List Str) (last s : Str), last.isPrefixOf s = false →
      geminiTextStep contents last s = (contents ++ [s], s)) ∧
    parseGemLines (pySplitNl (pyStrip c3input)) gemInit =
      .ok ⟨[toL "Hello", toL " world", toL "!"], toL "Hello world!", none, some [], [], 3⟩ ∧
    parse_gemini_logs c3input = .ok ⟨toL "Hello world!", none, none, none, 3, []⟩ := by
  refine ⟨?_, ?_, rfl, rfl⟩
  · intro contents last s h
    simp [geminiTextStep, h]
  · intro contents last s h
    simp [geminiTextStep, h]

theorem claim_C3_witness :
    geminiTextStep [toL "Hello"] (toL "Hello") (toL "Hello world") =
      ([toL "Hello", toL " world"], toL "Hello world") ∧
    geminiTextStep [toL "a"] (toL "xy") (toL "b") = ([toL "a", toL "b"], toL "b") := by
  constructor
  · have h := claim_C3.1 [toL "Hello"] (toL "Hello") (toL "Hello world") rfl
    rw [h]
    rfl
  · have h := claim_C3.2.1 [toL "a"] (toL "xy") (toL "b") rfl
    rw [h]
    rfl

/-- Claim C4: the trailing-JSON extractor finds the first brace, scans with
brace depth and an in-string flag with escape handling (a brace inside a
quoted string never changes depth), extracts the first balanced object
while ignoring trailing content — on the given text it extracts
`{"a": "b}c", "d": 1}` — and returns None when no balanced closing point
exists or when the candidate fails to decode. -/
theorem claim_C4 :
    extract_json_from_text c4text =
      some (.obj [(toL "a", .str (toL "b\x7dc")), (toL "d", .num 1)]) ∧
    (∀ (t : Str) (s : Nat), firstBrace t = some s → scanEnd t s = none →
      extract_json_from_text t = none) ∧
    (∀ (t : Str) (s e : Nat) (err : Str), firstBrace t = some s → scanEnd t s = some e →
      jsonDecode ((t.drop s).take (e - s + 1)) = .error err →
      extract_json_from_text t = none) := by
  refine ⟨rfl, ?_, ?_⟩
  · intro t s h1 h2
    unfold extract_json_from_text
    cases t with
    | nil => simp [firstBrace, firstBraceAux] at h1
    | cons c cs => simp [h1, h2, List.isEmpty]
  · intro t s e err h1 h2 h3
    unfold extract_json_from_text
    cases t with
    | nil => simp [firstBrace, firstBraceAux] at h1
    | cons c cs => simp [h1, h2, h3, List.isEmpty]

theorem claim_C4_witness :
    extract_json_from_text (toL "\x7bx") = none ∧
    extract_json_from_text (toL "\x7b,\x7d") = none := by
  constructor
  · exact claim_C4.2.1 (toL "\x7bx") 0 rfl rfl
  · exact claim_C4.2.2 (toL "\x7b,\x7d") 0 2
      (toL "Expecting property name enclosed in double quotes: line 1 column 2 (char 1)")
      rfl rfl rfl

/-- Claim C9 (code evaluation at the failing input): on a single Gemini
chunk whose first candidate has two parts "A" and "B", the code
accumulates "AB" — it iterates over all parts — although its own
docstring (and the spec) say only `candidates[0].content.parts[0].text`
contributes. -/
theorem claim_C9_eval :
    parse_gemini_logs c9input = .ok ⟨toL "AB", none, none, none, 1, []⟩ := rfl

/-- A line whose payload is the literal `[DONE]` never survives
Playground's line filter: it is not in Playground's sentinel set, but it
does not start with `{` and is skipped before JSON decoding. -/
theorem lineToJsonStr_play_done {l : Str} (h : payloadOf l = toL "[DONE]") :
    lineToJsonStr metaPlay l = none := by
  unfold lineToJsonStr
  simp only [h]
  split
  · rfl
  · decide

theorem playLine_done {l : Str} (h : payloadOf l = toL "[DONE]") (st : PlayState) :
    playLine st l = .ok st := by
  unfold playLine
  rw [lineToJsonStr_play_done h]

theorem parsePlayLines_cons (l : Str) (ls : List Str) (st : PlayState) :
    parsePlayLines (l :: ls) st = playLine st l >>= fun s => parsePlayLines ls s := by
  simp [parsePlayLines, List.foldlM_cons]

theorem parsePlayLines_skip (post : List Str) {line : Str}
    (h : payloadOf line = toL "[DONE]") :
    ∀ (pre : List Str) (st : PlayState),
      parsePlayLines (pre ++ line :: post) st = parsePlayLines (pre ++ post) st := by
  intro pre
  induction pre with
  | nil =>
    intro st
    rw [List.nil_append, List.nil_append, parsePlayLines_cons, playLine_done h]
    rfl
  | cons p ps ih =>
    intro st
    rw [List.cons_append, List.cons_append, parsePlayLines_cons, parsePlayLines_cons]
    cases hp : playLine st p with
    | error e => rfl
    | ok s => exact ih s

/-- Claim C10: for the Playground accumulator a line whose payload (after
stripping the `data:` prefix) is the literal `[DONE]` is a complete no-op:
the per-line step returns the state unchanged (so it is not counted and
produces no error entry), and deleting such a line from the line sequence
does not change the fold at all. -/
theorem claim_C10 :
    (∀ (line : Str) (st : PlayState), payloadOf line = toL "[DONE]" →
      playLine st line = .ok st) ∧
    (∀ (pre post : List Str) (line : Str) (st : PlayState), payloadOf line = toL "[DONE]" →
      parsePlayLines (pre ++ line :: post) st = parsePlayLines (pre ++ post) st) := by
  constructor
  · intro line st h
    exact playLine_done h st
  · intro pre post line st h
    exact parsePlayLines_skip post h pre st

theorem claim_C10_witness :
    playLine playInit (toL "data: [DONE]") = .ok playInit ∧
    parsePlayLines [c10playLine, toL "data: [DONE]"] playInit =
      parsePlayLines [c10playLine] playInit := by
  constructor
  · exact claim_C10.1 (toL "data: [DONE]") playInit rfl
  · exact claim_C10.2 [c10playLine] [] (toL "data: [DONE]") playInit rfl

/-- Claim C1 (counterexample): the accumulators do return synthesized
values the input never provided.  The Orchestrator accumulator returns
an empty metadata dict — not None — when the first chunk carries none of
the captured fields; the Anthropic accumulator, on a `message_start`
whose `message.usage` lacks `input_tokens`, returns an empty metadata
dict and a usage dict whose `input_tokens` key holds null (a value never
present in any chunk); Orchestrator metadata contains the derived
`created_formatted` key that appears in no chunk; the Anthropic
accumulator stores the computed sum `total_tokens = 8`, a value present
in no chunk; and the MAS accumulator both returns an empty metadata dict
and attaches the synthesized `agents` records and the computed
`agent_count`, none of which any chunk provided. -/
theorem claim_C1_counterexample :
    parse_orchestrator_logs c1orchInput =
      .ok ⟨toL "hi", none, none, some (.obj []), 1, []⟩ ∧
    parse_anthropic_logs c1anthInput =
      .ok ⟨[], none, some (.obj [(toL "input_tokens", .null)]), some (.obj []), 1, []⟩ ∧
    parse_orchestrator_logs c1createdInput =
      .ok ⟨[], none, none,
        some (.obj [(toL "created", .num 5), (toL "created_formatted", .str (fmtTimestamp 5))]),
        1, []⟩ ∧
    parse_anthropic_logs c1anthTotalInput =
      .ok ⟨[], none,
        some (.obj [(toL "input_tokens", .num 3), (toL "output_tokens", .num 5),
                    (toL "total_tokens", .num 8)]),
        some (.obj []), 2, []⟩ ∧
    parse_mas_response_logs c1masEmptyInput =
      .ok ⟨[], none, none, some (.obj []), 1, []⟩ ∧
    parse_mas_response_logs c1masAgentsInput =
      .ok ⟨[], none, none,
        some (.obj [(toL "workflow_id", .str (toL "w")),
                    (toL "agents", .arr [.obj [(toL "node_id", .str (toL "n")),
                                              (toL "first_step", .num 1)]]),
                    (toL "agent_count", .num 1)]),
        1, []⟩ :=
  ⟨rfl, rfl, rfl, rfl, rfl, rfl⟩

/-- Claim C1 (amended): across all six parsers, usage, metadata and
json_data stay None unless the chunks provided the corresponding value,
up to the deviations the counterexample exhibits.  Orchestrator: any
returned usage value was literally a non-null `usage` field of some
decoded chunk; metadata (possibly the empty mapping) requires at least
one decoded chunk; json_data requires accumulated text.  Anthropic:
usage or metadata require at least one decoded chunk; json_data requires
text.  Gemini: usage and metadata are never empty mappings (an empty
dict collapses to None), both require a decoded chunk, and json_data
requires text.  Playground: usage and metadata are always None.  MAS:
any returned usage value was literally a truthy `usage` field of some
decoded chunk; metadata requires a decoded chunk; json_data requires
text.  Generic extractor: any usage value is the resolution of the
configured usage path against some decoded chunk; metadata is either
None or a nonempty mapping; json_data requires text. -/
theorem claim_C1 :
    (∀ (raw : Str) (r : ParseResult), parse_orchestrator_logs raw = .ok r →
      (∀ u, r.usage = some u →
        ∃ c ∈ namedChunks (pySplitNl (pyStrip raw)),
          lookupJ c (toL "usage") = some u ∧ isNull u = false) ∧
      (r.metadata ≠ none → namedChunks (pySplitNl (pyStrip raw)) ≠ []) ∧
      (r.json_data ≠ none → r.raw_text ≠ [])) ∧
    (∀ (raw : Str) (r : ParseResult), parse_anthropic_logs raw = .ok r →
      ((r.usage ≠ none ∨ r.metadata ≠ none) →
        namedChunks (pySplitNl (pyStrip raw)) ≠ []) ∧
      (r.json_data ≠ none → r.raw_text ≠ [])) ∧
    (∀ (raw : Str) (r : ParseResult), parse_gemini_logs raw = .ok r →
      (r.usage = none ∨ ∃ kvs, kvs ≠ [] ∧ r.usage = some (.obj kvs)) ∧
      (r.metadata = none ∨ ∃ kvs, kvs ≠ [] ∧ r.metadata = some (.obj kvs)) ∧
      ((r.usage ≠ none ∨ r.metadata ≠ none) →
        namedChunks (pySplitNl (pyStrip raw)) ≠ []) ∧
      (r.json_data ≠ none → r.raw_text ≠ [])) ∧
    (∀ (raw : Str) (r : ParseResult), parse_playground_logs raw = .ok r →
      r.usage = none ∧ r.metadata = none ∧ (r.json_data ≠ none → r.raw_text ≠ [])) ∧
    (∀ (raw : Str) (r : ParseResult), parse_mas_response_logs raw = .ok r →
      (∀ u, r.usage = some u →
        ∃ c ∈ masChunks (pySplitNl (pyStrip raw)),
          lookupJ c (toL "usage") = some u ∧ pyTruthy u = true) ∧
      (r.metadata ≠ none → masChunks (pySplitNl (pyStrip raw)) ≠ []) ∧
      (r.json_data ≠ none → r.raw_text ≠ [])) ∧
    (∀ (raw : Str) (ex : CustomExtractor),
      (∀ u, (parse_with_custom_extractor raw ex).usage = some u →
        ∃ c ∈ extract_sse_chunks raw, ∃ p, activeUsagePath ex = some p ∧
          get_nested_value c p = some u) ∧
      ((parse_with_custom_extractor raw ex).metadata = none ∨
        ∃ kvs, kvs ≠ [] ∧
          (parse_with_custom_extractor raw ex).metadata = some (.obj kvs)) ∧
      ((parse_with_custom_extractor raw ex).json_data ≠ none →
        (parse_with_custom_extractor raw ex).raw_text ≠ [])) := by
  refine ⟨?_, ?_, ?_, ?_, ?_, ?_⟩
  · intro raw r h
    obtain ⟨st, hst, hu, hm, hj⟩ := parse_orch_inv h
    refine ⟨?_, ?_, ?_⟩
    · intro u huu
      have hsu : st.usage = some u := by rw [← hu, huu]
      rcases parseOrchLines_usage _ _ _ hst u hsu with h0 | hex
      · exact absurd h0 (by simp [orchInit])
      · exact hex
    · intro hmne
      have hsm : st.metadata ≠ none := by
        intro hnone
        rw [hm, hnone] at hmne
        simp at hmne
      rcases parseOrchLines_meta _ _ _ hst hsm with h0 | hr
      · exact absurd rfl h0
      · exact hr
    · intro hjd
      exact extract_needs_text (by rw [← hj]; exact hjd)
  · intro raw r h
    obtain ⟨st, hst, hu, hm, hj⟩ := parse_anth_inv h
    refine ⟨?_, ?_⟩
    · intro hx
      have hx' : st.usage ≠ none ∨ st.metadata ≠ none := by
        rcases hx with h1 | h1
        · refine .inl fun hnone => ?_
          rw [hu, hnone] at h1
          simp at h1
        · refine .inr fun hnone => ?_
          rw [hm, hnone] at h1
          simp at h1
      rcases parseAnthLines_src _ _ _ hst hx' with h0 | hr
      · rcases h0 with h1 | h1 <;> simp [anthInit] at h1
      · exact hr
    · intro hjd
      exact extract_needs_text (by rw [← hj]; exact hjd)
  · intro raw r h
    obtain ⟨st, hst, hu, hm, hj⟩ := parse_gem_inv h
    refine ⟨?_, ?_, ?_, ?_⟩
    · rw [hu]
      exact toOptObj_cases st.usage
    · rw [hm]
      exact toOptObj_cases st.metadata
    · intro hx
      have hx' : st.usage ≠ none ∨ st.metadata ≠ none := by
        rcases hx with h1 | h1
        · refine .inl fun hnone => ?_
          rw [hu, hnone] at h1
          exact h1 rfl
        · refine .inr fun hnone => ?_
          rw [hm, hnone] at h1
          exact h1 rfl
      rcases parseGemLines_src _ _ _ hst hx' with h0 | hr
      · rcases h0 with h1 | h1 <;> simp [gemInit] at h1
      · exact hr
    · intro hjd
      exact extract_needs_text (by rw [← hj]; exact hjd)
  · intro raw r h
    obtain ⟨hu, hm, hj⟩ := parse_play_inv h
    exact ⟨hu, hm, fun hjd => extract_needs_text (by rw [← hj]; exact hjd)⟩
  · intro raw r h
    obtain ⟨st, hst, hu, hm, hj⟩ := parse_mas_inv h
    refine ⟨?_, ?_, ?_⟩
    · intro u huu
      have hsu : st.usage = some u := by rw [← hu, huu]
      rcases parseMasLines_usage _ _ _ hst u hsu with h0 | hex
      · exact absurd h0 (by simp [masInit])
      · exact hex
    · intro hmne
      have hsm : st.metadata ≠ none := by
        intro hnone
        rw [hm, hnone, masAttachAgents_none] at hmne
        simp at hmne
      rcases parseMasLines_meta _ _ _ hst hsm with h0 | hr
      · exact absurd rfl h0
      · exact hr
    · intro hjd
      exact extract_needs_text (by rw [← hj]; exact hjd)
  · intro raw ex
    have hmr : (parse_with_custom_extractor raw ex).metadata =
        ((extract_sse_chunks raw).foldl (custStep ex) custInit).metadata.map .obj := rfl
    have hjr : (parse_with_custom_extractor raw ex).json_data =
        extract_json_from_text (parse_with_custom_extractor raw ex).raw_text := rfl
    refine ⟨?_, ?_, ?_⟩
    · intro u huu
      rcases custFold_usage ex (extract_sse_chunks raw) custInit u huu with h0 | hex
      · exact absurd h0 (by simp [custInit])
      · exact hex
    · cases hmm : ((extract_sse_chunks raw).foldl (custStep ex) custInit).metadata with
      | none =>
        refine .inl ?_
        rw [hmr, hmm]
        rfl
      | some m =>
        refine .inr ⟨m, ?_, ?_⟩
        · exact custFold_meta ex _ custInit (fun m0 hm0 => Option.noConfusion hm0) m hmm
        · rw [hmr, hmm]
          rfl
    · intro hjd
      exact extract_needs_text (by rw [← hjr]; exact hjd)

theorem claim_C1_witness :
    (∃ c ∈ namedChunks (pySplitNl (pyStrip c2input)),
        lookupJ c (toL "usage") = some (.obj [(toL "total_tokens", .num 5)]) ∧
        isNull (.obj [(toL "total_tokens", .num 5)]) = false) ∧
    namedChunks (pySplitNl (pyStrip c2input)) ≠ [] ∧
    namedChunks (pySplitNl (pyStrip c1anthInput)) ≠ [] ∧
    ((⟨toL "Hello world!", none, none, none, 3, []⟩ : ParseResult).metadata = none ∨
      ∃ kvs, kvs ≠ [] ∧
        (⟨toL "Hello world!", none, none, none, 3, []⟩ : ParseResult).metadata =
          some (.obj kvs)) ∧
    ((⟨toL "hi", none, none, none, 1, []⟩ : ParseResult).usage = none ∧
      (⟨toL "hi", none, none, none, 1, []⟩ : ParseResult).metadata = none ∧
      ((⟨toL "hi", none, none, none, 1, []⟩ : ParseResult).json_data ≠ none →
        (⟨toL "hi", none, none, none, 1, []⟩ : ParseResult).raw_text ≠ [])) ∧
    (∃ c ∈ masChunks (pySplitNl (pyStrip c1masUsageInput)),
        lookupJ c (toL "usage") = some (.obj [(toL "t", .num 2)]) ∧
        pyTruthy (.obj [(toL "t", .num 2)]) = true) ∧
    (∃ c ∈ extract_sse_chunks c2input, ∃ p, activeUsagePath cwExtractor = some p ∧
        get_nested_value c p = some (.obj [(toL "total_tokens", .num 5)])) ∧
    (⟨toL "\x7b\"a\": 1\x7d", some (.obj [(toL "a", .num 1)]), none, some (.obj []), 1, []⟩ :
      ParseResult).raw_text ≠ [] := by
  refine ⟨?_, ?_, ?_, ?_, ?_, ?_, ?_, ?_⟩
  · exact (claim_C1.1 c2input
      ⟨toL "Hello", none, some (.obj [(toL "total_tokens", .num 5)]),
       some (.obj [(toL "id", .str (toL "x")), (toL "model", .str (toL "m"))]), 3, []⟩
      rfl).1 _ rfl
  · exact (claim_C1.1 c2input
      ⟨toL "Hello", none, some (.obj [(toL "total_tokens", .num 5)]),
       some (.obj [(toL "id", .str (toL "x")), (toL "model", .str (toL "m"))]), 3, []⟩
      rfl).2.1 (by simp)
  · exact (claim_C1.2.1 c1anthInput
      ⟨[], none, some (.obj [(toL "input_tokens", .null)]), some (.obj []), 1, []⟩
      rfl).1 (.inr (by simp))
  · exact (claim_C1.2.2.1 c3input
      ⟨toL "Hello world!", none, none, none, 3, []⟩ rfl).2.1
  · exact claim_C1.2.2.2.1 c10playLine
      ⟨toL "hi", none, none, none, 1, []⟩ rfl
  · exact (claim_C1.2.2.2.2.1 c1masUsageInput
      ⟨[], none, some (.obj [(toL "t", .num 2)]), some (.obj []), 1, []⟩ rfl).1 _ rfl
  · exact (claim_C1.2.2.2.2.2 c2input cwExtractor).1 _ rfl
  · exact (claim_C1.1 c1jsonInput
      ⟨toL "\x7b\"a\": 1\x7d", some (.obj [(toL "a", .num 1)]), none, some (.obj []), 1, []⟩
      rfl).2.2 (by simp)

/-- Claim C5: `get_nested_value` is total (modelled as a function into
`Option`, it never raises), and every structural failure — empty path,
null root, wrong node type for a plain key or an indexed segment,
missing key, key resolving to a non-list under an index or a wildcard,
index out of range — makes the whole path resolve to None. -/
theorem claim_C5 :
    (∀ (obj : Json) (path : Str),
      get_nested_value obj path = none ∨ ∃ v, get_nested_value obj path = some v) ∧
    (∀ obj : Json, get_nested_value obj [] = none) ∧
    (∀ path : Str, get_nested_value .null path = none) ∧
    (∀ (cur : Json) (part : Str) (rest : List Str), parseArraySeg part = none →
      (∀ kvs, cur ≠ .obj kvs) → resolveSegs (some cur) (part :: rest) = none) ∧
    (∀ (kvs : List (Str × Json)) (part : Str) (rest : List Str), parseArraySeg part = none →
      denull (lookupKey kvs part) = none →
      resolveSegs (some (.obj kvs)) (part :: rest) = none) ∧
    (∀ (cur : Json) (part key : Str) (i : PathIdx) (rest : List Str),
      parseArraySeg part = some (key, i) → (∀ kvs, cur ≠ .obj kvs) →
      resolveSegs (some cur) (part :: rest) = none) ∧
    (∀ (kvs : List (Str × Json)) (part key : Str) (k : Nat) (rest : List Str),
      parseArraySeg part = some (key, .idx k) → denull (lookupKey kvs key) = none →
      resolveSegs (some (.obj kvs)) (part :: rest) = none) ∧
    (∀ (kvs : List (Str × Json)) (part key : Str) (k : Nat) (rest : List Str) (xs : List Json),
      parseArraySeg part = some (key, .idx k) →
      denull (lookupKey kvs key) = some (.arr xs) → xs.length ≤ k →
      resolveSegs (some (.obj kvs)) (part :: rest) = none) ∧
    (∀ (kvs : List (Str × Json)) (part key : Str) (rest : List Str) (v : Json),
      parseArraySeg part = some (key, .star) → denull (lookupKey kvs key) = some v →
      (∀ xs, v ≠ .arr xs) → resolveSegs (some (.obj kvs)) (part :: rest) = none) ∧
    (∀ (part : Str) (rest : List Str), resolveSegs none (part :: rest) = none) := by
  refine ⟨?_, ?_, ?_, ?_, ?_, ?_, ?_, ?_, ?_, ?_⟩
  · intro obj path
    cases h : get_nested_value obj path with
    | none => exact .inl rfl
    | some v => exact .inr ⟨v, rfl⟩
  · intro obj
    simp [get_nested_value, List.isEmpty]
  · intro path
    unfold get_nested_value
    split <;> rfl
  · intro cur part rest hseg hno
    unfold resolveSegs
    simp only [segStep, hseg]
    cases cur with
    | obj kvs => exact absurd rfl (hno _)
    | _ => rfl
  · intro kvs part rest hseg hlk
    unfold resolveSegs
    simp only [segStep, hseg, hlk]
    cases rest <;> rfl
  · intro cur part key i rest hseg hno
    cases i with
    | star =>
      unfold resolveSegs
      simp only [segStep, hseg]
      cases cur with
      | obj kvs => exact absurd rfl (hno _)
      | _ => rfl
    | idx k =>
      unfold resolveSegs
      simp only [segStep, hseg]
      cases cur with
      | obj kvs => exact absurd rfl (hno _)
      | _ => rfl
  · intro kvs part key k rest hseg hlk
    unfold resolveSegs
    simp only [segStep, hseg, keyLookupOf, hlk]
    rfl
  · intro kvs part key k rest xs hseg hlk hle
    unfold resolveSegs
    simp only [segStep, hseg, keyLookupOf, hlk]
    rw [if_neg (by omega)]
    rfl
  · intro kvs part key rest v hseg hlk hv
    unfold resolveSegs
    simp only [segStep, hseg, keyLookupOf, hlk]
    cases v <;> first | rfl | exact absurd rfl (hv _)
  · intro part rest
    rfl

theorem claim_C5_witness :
    resolveSegs (some (.num 1)) [toL "a"] = none ∧
    resolveSegs (some (.obj [(toL "b", .null)])) [toL "b"] = none ∧
    resolveSegs (some (.num 1)) [toL "a[0]"] = none ∧
    resolveSegs (some (.obj [])) [toL "a[0]"] = none ∧
    resolveSegs (some (.obj [(toL "a", .arr [.num 1])])) [toL "a[3]"] = none ∧
    resolveSegs (some (.obj [(toL "a", .num 2)])) [toL "a[*]"] = none := by
  refine ⟨?_, ?_, ?_, ?_, ?_, ?_⟩
  · exact claim_C5.2.2.2.1 (.num 1) (toL "a") [] rfl
      (fun kvs h => Json.noConfusion h)
  · exact claim_C5.2.2.2.2.1 [(toL "b", .null)] (toL "b") [] rfl rfl
  · exact claim_C5.2.2.2.2.2.1 (.num 1) (toL "a[0]") (toL "a") (.idx 0) [] rfl
      (fun kvs h => Json.noConfusion h)
  · exact claim_C5.2.2.2.2.2.2.1 [] (toL "a[0]") (toL "a") 0 [] rfl rfl
  · exact claim_C5.2.2.2.2.2.2.2.1 [(toL "a", .arr [.num 1])] (toL "a[3]") (toL "a") 3 []
      [.num 1] rfl rfl (by decide)
  · exact claim_C5.2.2.2.2.2.2.2.2.1 [(toL "a", .num 2)] (toL "a[*]") (toL "a") [] (.num 2)
      rfl rfl (fun xs h => Json.noConfusion h)

/-- Claim C6 (counterexample): the recorded decode-error message is NOT
at most 50 characters: the truncation applies only to the decoder error,
after an 18-character prefix, so the single message produced by one
malformed line between two valid chunks is 68 characters long. -/
theorem claim_C6_counterexample :
    parse_orchestrator_logs c6input =
      .ok ⟨toL "AB", none, none, some (.obj []), 2, [c6msg]⟩ ∧
    50 < c6msg.length :=
  ⟨rfl, by decide⟩

/-- Claim C6 (amended): in every one of the five named-format
accumulators — Orchestrator, Anthropic, Gemini, Playground and MAS — a
per-line JSON-decode failure is non-fatal: the step succeeds and appends
exactly one message — the fixed prefix "JSON parse error: " plus the
decoder error truncated to its first 50 characters, hence at most 68
characters in total — to `errors`, leaving every other state component
(contents, usage, metadata, `chunk_count`, agent tracking) untouched; on
a log of two valid chunks around one malformed line the Orchestrator
parse yields exactly one error, `chunk_count = 2` and content from the
valid chunks only. -/
theorem claim_C6 :
    (∀ (st : OrchState) (l js e : Str),
      lineToJsonStr metaNamed l = some js → jsonDecode js = .error e →
      orchLine st l = .ok { st with errors := st.errors ++ [jsonErrMsg e] }) ∧
    (∀ (st : AnthState) (l js e : Str),
      lineToJsonStr metaNamed l = some js → jsonDecode js = .error e →
      anthLine st l = .ok { st with errors := st.errors ++ [jsonErrMsg e] }) ∧
    (∀ (st : GemState) (l js e : Str),
      lineToJsonStr metaNamed l = some js → jsonDecode js = .error e →
      gemLine st l = .ok { st with errors := st.errors ++ [jsonErrMsg e] }) ∧
    (∀ (st : PlayState) (l js e : Str),
      lineToJsonStr metaPlay l = some js → jsonDecode js = .error e →
      playLine st l = .ok { st with errors := st.errors ++ [jsonErrMsg e] }) ∧
    (∀ (st : MasState) (l js e : Str),
      lineToJsonStr metaMas l = some js → jsonDecode js = .error e →
      masLine st l = .ok { st with errors := st.errors ++ [jsonErrMsg e] }) ∧
    (∀ e : Str, (jsonErrMsg e).length ≤ 68) ∧
    parse_orchestrator_logs c6input =
      .ok ⟨toL "AB", none, none, some (.obj []), 2, [c6msg]⟩ := by
  refine ⟨?_, ?_, ?_, ?_, ?_, ?_, rfl⟩
  · intro st l js e h1 h2
    unfold orchLine
    simp only [h1, h2]
  · intro st l js e h1 h2
    unfold anthLine
    simp only [h1, h2]
  · intro st l js e h1 h2
    unfold gemLine
    simp only [h1, h2]
  · intro st l js e h1 h2
    unfold playLine
    simp only [h1, h2]
  · intro st l js e h1 h2
    unfold masLine
    simp only [h1, h2]
  · intro e
    unfold jsonErrMsg
    rw [List.length_append, List.length_take]
    have h18 : (toL "JSON parse error: ").length = 18 := by decide
    omega

theorem claim_C6_witness :
    orchLine orchInit c6line =
      .ok { orchInit with errors := orchInit.errors ++ [jsonErrMsg c6err] } ∧
    anthLine anthInit c6line =
      .ok { anthInit with errors := anthInit.errors ++ [jsonErrMsg c6err] } ∧
    gemLine gemInit c6line =
      .ok { gemInit with errors := gemInit.errors ++ [jsonErrMsg c6err] } ∧
    playLine playInit c6line =
      .ok { playInit with errors := playInit.errors ++ [jsonErrMsg c6err] } ∧
    masLine masInit c6line =
      .ok { masInit with errors := masInit.errors ++ [jsonErrMsg c6err] } ∧
    (jsonErrMsg c6err).length ≤ 68 :=
  ⟨claim_C6.1 orchInit c6line (toL "\x7binvalid\x7d") c6err rfl rfl,
   claim_C6.2.1 anthInit c6line (toL "\x7binvalid\x7d") c6err rfl rfl,
   claim_C6.2.2.1 gemInit c6line (toL "\x7binvalid\x7d") c6err rfl rfl,
   claim_C6.2.2.2.1 playInit c6line (toL "\x7binvalid\x7d") c6err rfl rfl,
   claim_C6.2.2.2.2.1 masInit c6line (toL "\x7binvalid\x7d") c6err rfl rfl,
   claim_C6.2.2.2.2.2.1 c6err⟩

/-- Claim C7: `detect_format` depends only on the first 5000 characters;
the first (Anthropic) signature wins over everything else whenever it
matches; when none of the signatures matches the result is the
ORCHESTRATOR fallback; and the two given inputs are detected as
ANTHROPIC and ORCHESTRATOR respectively. -/
theorem claim_C7 :
    (∀ s : Str, detect_format s = detect_format (s.take 5000)) ∧
    (∀ s : Str, containsSub (s.take 5000) (toL "\"type\"") = true →
      containsSub (s.take 5000) (toL "\"content_block_delta\"") = true →
      detect_format s = .ANTHROPIC) ∧
    (∀ s : Str, containsSub (s.take 5000) (toL "\"type\"") = false →
      containsSub (s.take 5000) (toL "\"candidates\"") = false →
      containsSub (s.take 5000) (toL "\"event_type\"") = false →
      containsSub (s.take 5000) (toL "\"node_id\"") = false →
      containsSub (s.take 5000) (toL "\"op\"") = false →
      containsSub (s.take 5000) (toL "\"choices\"") = false →
      detect_format s = .ORCHESTRATOR) ∧
    detect_format c7anthInput = .ANTHROPIC ∧
    detect_format c7orchInput = .ORCHESTRATOR := by
  refine ⟨?_, ?_, ?_, rfl, rfl⟩
  · intro s
    simp [detect_format, List.take_take]
  · intro s h1 h2
    simp [detect_format, h1, h2]
  · intro s h1 h2 h3 h4 h5 h6
    simp [detect_format, h1, h2, h3, h4, h5, h6]

theorem claim_C7_witness :
    detect_format c7anthInput = .ANTHROPIC ∧
    detect_format (toL "hello") = .ORCHESTRATOR :=
  ⟨claim_C7.2.1 c7anthInput rfl rfl,
   claim_C7.2.2.1 (toL "hello") rfl rfl rfl rfl rfl rfl⟩

/-- Claim C8 (counterexample): with `input_tokens = 0` captured from
`message_start` and `output_tokens = 5` from `message_delta`, the code
does NOT set `total_tokens` (the truthiness test drops the zero count),
although the claim demands the exact sum 5. -/
theorem claim_C8_counterexample :
    parse_anthropic_logs c8zeroInput =
      .ok ⟨[], none,
        some (.obj [(toL "input_tokens", .num 0), (toL "output_tokens", .num 5)]),
        some (.obj []), 2, []⟩ ∧
    lookupKey [(toL "input_tokens", .num 0), (toL "output_tokens", .num 5)]
      (toL "total_tokens") = none :=
  ⟨rfl, rfl⟩

/-- Claim C8 (amended): on a `message_delta` chunk whose usage object is
truthy, `output_tokens` is always (re)set; and when both the running
`input_tokens` and the incoming `output_tokens` are nonzero integers,
`total_tokens` is set to their exact sum.  (When either count is zero
the sum is not computed — that is what the counterexample forces.) -/
theorem claim_C8 (st : AnthState) (chunk du : Json) (dl : List (Str × Json))
    (u : List (Str × Json)) (a b : Int)
    (h1 : jGetN chunk (toL "type") = .ok (.str (toL "message_delta")))
    (h2 : jGetN chunk (toL "usage") = .ok du)
    (h3 : pyTruthy du = true)
    (h4 : jGetN du (toL "output_tokens") = .ok (.num b))
    (h5 : st.usage = some u)
    (h6 : lookupKey u (toL "input_tokens") = some (.num a))
    (h7 : a ≠ 0) (h8 : b ≠ 0)
    (h9 : jGet chunk (toL "delta") (.obj []) = .ok (.obj dl)) :
    ∃ st', anthBody st chunk = .ok st' ∧
      ∃ u', st'.usage = some u' ∧
        lookupKey u' (toL "output_tokens") = some (.num b) ∧
        lookupKey u' (toL "total_tokens") = some (.num (a + b)) := by
  have hio : ¬ (toL "input_tokens" = toL "output_tokens") := by decide
  have hto : ¬ (toL "total_tokens" = toL "output_tokens") := by decide
  have hlkin : lookupKey (setKey u (toL "output_tokens") (.num b)) (toL "input_tokens") =
      some (.num a) := by
    rw [lookupKey_setKey, if_neg hio, h6]
  have hlkout : lookupKey (setKey u (toL "output_tokens") (.num b)) (toL "output_tokens") =
      some (.num b) := by
    rw [lookupKey_setKey, if_pos rfl]
  unfold anthBody
  simp only [h1, h2, h3, h4, h5, h9, Bind.bind, Except.bind]
  have hms : isStrJ (.str (toL "message_delta")) "message_start" = false := by decide
  have hcb : isStrJ (.str (toL "message_delta")) "content_block_delta" = false := by decide
  have hmd : isStrJ (.str (toL "message_delta")) "message_delta" = true := by decide
  simp only [hms, hcb, hmd, Bool.false_eq_true, if_false, if_true, Option.getD_some]
  simp only [hlkin, hlkout, pyTruthyOpt, pyTruthy, Option.getD_some]
  rw [if_pos (by simp [h7, h8])]
  simp only [pyAdd, Except.bind]
  refine ⟨_, rfl, setKey (setKey u (toL "output_tokens") (.num b)) (toL "total_tokens")
    (.num (a + b)), rfl, ?_, ?_⟩
  · rw [lookupKey_setKey, if_neg (fun hh => hto hh.symm), hlkout]
  · rw [lookupKey_setKey, if_pos rfl]

theorem claim_C8_witness :
    ∃ st', anthBody ⟨[], some [(toL "input_tokens", .num 3)], none, [], 1⟩
        (.obj [(toL "type", .str (toL "message_delta")),
               (toL "usage", .obj [(toL "output_tokens", .num 5)])]) = .ok st' ∧
      ∃ u', st'.usage = some u' ∧
        lookupKey u' (toL "output_tokens") = some (.num 5) ∧
        lookupKey u' (toL "total_tokens") = some (.num (3 + 5)) :=
  claim_C8 ⟨[], some [(toL "input_tokens", .num 3)], none, [], 1⟩
    (.obj [(toL "type", .str (toL "message_delta")),
           (toL "usage", .obj [(toL "output_tokens", .num 5)])])
    (.obj [(toL "output_tokens", .num 5)]) [] [(toL "input_tokens", .num 3)] 3 5
    rfl rfl rfl rfl rfl rfl (by decide) (by decide) rfl

end DeltaToJson
